import Mathlib

/-!
# Verification of the Endolla Watcher time-series storage and analytics engine

Shallow Lean embedding of `src/endolla_watcher/storage.py`.

Modelling conventions:
* Timestamps and durations are integer numbers of seconds on a single linear
  time axis (Python `datetime`/`timedelta` arithmetic; ISO-string comparison in
  SQL agrees with time order for the timestamps the program writes).
  `timedelta(days=d)` is `d * 86400` seconds, `timedelta(hours=h)` is
  `h * 3600` seconds.
* Quantities Python computes with float division (session durations in
  minutes, utilization ratios) are modelled exactly over `ℚ`; the verified
  properties are order/sign facts that do not depend on float rounding.
* Nullable SQL text columns are `Option String`; MySQL's null-safe `<=>`
  comparison is `BEq` on `Option String`.
* The `port_status` table is a list of rows carrying the auto-increment `id`;
  SQL result-set order is made deterministic with a stable insertion sort
  matching the `ORDER BY` clauses (Python's `sorted` is likewise stable).
-/

namespace Endolla

/-- A nullable status column value. -/
abbrev Status := Option String

/-- `(location_id, station_id, port_id)`, all nullable (storage.py:30). -/
abbrev PortKey := Option String × Option String × Option String

/-- storage.py:26 -/
def UNAVAILABLE_STATUSES : List String := ["OUT_OF_ORDER", "UNAVAILABLE"]

/-- storage.py:27 -/
def OCCUPIED_STATUSES : List String := ["IN_USE", "FINISHED", "COMPLETED", "OCCUPIED", "CHARGING"]

/-- storage.py:28 -/
def ACTIVE_CHARGING_STATUSES : List String := ["IN_USE", "CHARGING"]

/-- `status in SET` for a nullable status (`None` is in no Python string set). -/
def statusIn (s : Status) (set : List String) : Bool :=
  match s with
  | some v => set.contains v
  | none => false

/-- MySQL null-safe equality `<=>` on nullable text. -/
def nullEq (a b : Option String) : Bool := a == b

/-- One `port_status` row (schema at storage.py:80-90). -/
structure Row where
  id : Nat
  ts : ℤ
  location_id : Option String
  station_id : Option String
  port_id : Option String
  status : Status
  deriving DecidableEq

/-- The implicit identity of a row (storage.py:30). -/
def rowKey (r : Row) : PortKey := (r.location_id, r.station_id, r.port_id)

/-- `location_id <=> %s AND station_id <=> %s AND port_id <=> %s`. -/
def keyMatches (r : Row) (k : PortKey) : Bool :=
  nullEq r.location_id k.1 && nullEq r.station_id k.2.1 && nullEq r.port_id k.2.2

/-! ## `_status_intervals` (storage.py:819-843) -/

/-- `sorted(events, key=lambda item: item[0])` — a stable sort by time. -/
def sortEvents (events : List (ℤ × Status)) : List (ℤ × Status) :=
  events.insertionSort (fun a b => a.1 ≤ b.1)

/-- The `for ts, status in ordered[1:]` loop of `_status_intervals`
(storage.py:831-842), including the final open interval clipped at `end`
(storage.py:841-842).  `prev` is the running `(prev_ts, prev_status)` pair. -/
def statusIntervalsLoop (prev : ℤ × Status) (rest : List (ℤ × Status)) (e : ℤ) :
    List (ℤ × ℤ × Status) :=
  match rest with
  | [] => if prev.1 < e then [(prev.1, e, prev.2)] else []
  | (ts, status) :: tl =>
      if ts ≤ prev.1 then statusIntervalsLoop (ts, status) tl e
      else
        let segEnd := min ts e
        let seg : List (ℤ × ℤ × Status) :=
          if prev.1 < segEnd then [(prev.1, segEnd, prev.2)] else []
        if e ≤ ts then seg
        else seg ++ statusIntervalsLoop (ts, status) tl e

/-- `_status_intervals(events, end=e)` (storage.py:819-843): sort by time, walk
consecutive pairs, clip at `end`, drop non-positive intervals. -/
def statusIntervals (events : List (ℤ × Status)) (e : ℤ) : List (ℤ × ℤ × Status) :=
  match sortEvents events with
  | [] => []
  | first :: rest =>
      if e ≤ first.1 then []
      else (statusIntervalsLoop first rest e).filter (fun iv => decide (iv.1 < iv.2.1))

/-- Tiling of `[lo, hi)` by a list of intervals: contiguous, non-empty
intervals, the first starting at `lo` and the last ending at `hi`. -/
def tilesFrom : ℤ → List (ℤ × ℤ × Status) → ℤ → Prop
  | lo, [], hi => lo = hi
  | lo, iv :: tl, hi => iv.1 = lo ∧ lo < iv.2.1 ∧ tilesFrom iv.2.1 tl hi

instance : ∀ lo l hi, Decidable (tilesFrom lo l hi) := by
  intro lo l hi
  induction l generalizing lo with
  | nil => exact decEq lo hi
  | cons iv tl ih => exact @instDecidableAnd _ _ _ (@instDecidableAnd _ _ _ (ih iv.2.1))

/-- The timeline's status at time `t`: the status of the last event at or
before `t` (the value a `StatusTimeline` holds at `t`). -/
def statusAt (events : List (ℤ × Status)) (t : ℤ) : Option Status :=
  ((events.filter (fun ev => decide (ev.1 ≤ t))).getLast?).map Prod.snd

/-! ## `save_snapshot` (storage.py:305-352) -/

/-- An incoming device record (storage.py:314-318, upstream contract of §6). -/
structure SnapshotRecord where
  location_id : Option String
  station_id : Option String
  port_id : Option String
  status : Status
  deriving DecidableEq

/-- The `PortKey` of an incoming record. -/
def recordKey (r : SnapshotRecord) : PortKey := (r.location_id, r.station_id, r.port_id)

/-- Combine for `ORDER BY ts DESC LIMIT 1`: keep the row with the larger
timestamp, a later-encountered row winning ties. -/
def pickLater (acc : Option Row) (r : Row) : Option Row :=
  match acc with
  | none => some r
  | some b => if b.ts ≤ r.ts then some r else some b

/-- `SELECT status FROM port_status WHERE location_id <=> %s AND station_id <=>
%s AND port_id <=> %s ORDER BY ts DESC LIMIT 1` (storage.py:319-328): a row of
maximal `ts` among the rows matching the key. -/
def latestRow (table : List Row) (k : PortKey) : Option Row :=
  (table.filter (fun r => keyMatches r k)).foldl pickLater none

/-- Body of the `for r in records` loop (storage.py:314-340): a record is kept
for insertion unless the key's most recent stored row carries the same status
(`if row and row[0] == status: continue`, storage.py:329-330). -/
def recordIsNew (table : List Row) (r : SnapshotRecord) : Bool :=
  match latestRow table (recordKey r) with
  | some row => !(row.status == r.status)
  | none => true

/-- The `new_rows` list built by `save_snapshot` (storage.py:313-340). -/
def saveSnapshotNewRows (table : List Row) (records : List SnapshotRecord) :
    List SnapshotRecord :=
  records.filter (recordIsNew table)

/-- `save_snapshot(records, ts)` (storage.py:305-352): insert one row per kept
record (fresh auto-increment ids starting at `nextId`) and report whether any
row was written (`return bool(new_rows)`, storage.py:352).  The
`prune_old_data` call issued afterwards (storage.py:351) is modelled
separately by `pruneOldData`. -/
def saveSnapshot (table : List Row) (records : List SnapshotRecord) (ts : ℤ)
    (nextId : Nat) : List Row × Bool :=
  let kept := saveSnapshotNewRows table records
  (table ++ kept.enum.map (fun p =>
      { id := nextId + p.1, ts := ts, location_id := p.2.location_id,
        station_id := p.2.station_id, port_id := p.2.port_id,
        status := p.2.status }),
   !kept.isEmpty)

/-- `row` is a most recent stored row for key `k`: it matches `k` and no
matching row is newer. -/
def IsMostRecent (table : List Row) (k : PortKey) (row : Row) : Prop :=
  row ∈ table ∧ keyMatches row k = true ∧
    ∀ r ∈ table, keyMatches r k = true → r.ts ≤ row.ts

/-! ## Retention pruning (storage.py:156-245) -/

/-- `_truncate_to_hour` (storage.py:156-157): zero out minutes and seconds
(`(-·)/(·)` on `ℤ` is floor division, matching wall-clock truncation). -/
def truncateToHour (t : ℤ) : ℤ := 3600 * (t / 3600)

/-- `_truncate_to_day` (storage.py:160-161): zero out the time of day. -/
def truncateToDay (t : ℤ) : ℤ := 86400 * (t / 86400)

/-- The `WHERE` clause of `_downsample_range`'s query: `ts >= newer_than`
and `ts < older_than`, each optional (storage.py:177-182). -/
def inRange (newerThan olderThan : Option ℤ) (r : Row) : Bool :=
  (newerThan.all (fun t => decide (t ≤ r.ts))) &&
    (olderThan.all (fun t => decide (r.ts < t)))

/-- MySQL ascending order on a nullable text column (`NULL` sorts first). -/
def optStrLe (a b : Option String) : Bool :=
  match a, b with
  | none, _ => true
  | some _, none => false
  | some x, some y => decide (x ≤ y)

/-- `ORDER BY location_id, station_id, port_id, ts` (storage.py:183). -/
def rowLe (a b : Row) : Bool :=
  if a.location_id != b.location_id then optStrLe a.location_id b.location_id
  else if a.station_id != b.station_id then optStrLe a.station_id b.station_id
  else if a.port_id != b.port_id then optStrLe a.port_id b.port_id
  else decide (a.ts ≤ b.ts)

/-- The sorted result set scanned by `_downsample_range`. -/
def sortRows (rows : List Row) : List Row :=
  rows.insertionSort (fun a b => rowLe a b = true)

/-- The downsampling bucket identity of a row: its `PortKey` together with its
truncated timestamp (storage.py:197). -/
def bucketKey (bucket : ℤ → ℤ) (r : Row) : PortKey × ℤ := (rowKey r, bucket r.ts)

/-- The scan loop of `_downsample_range` (storage.py:186-201): keep the first
row per `(PortKey, bucket)`, collect the ids of every later row for deletion.
`seen` is the set of `(key, bucket)` pairs already encountered (the id stored
as the Python dict value is never read back). -/
def downsampleLoop (bucket : ℤ → ℤ) :
    List Row → List (PortKey × ℤ) → List Nat
  | [], _ => []
  | r :: rs, seen =>
      if bucketKey bucket r ∈ seen then r.id :: downsampleLoop bucket rs seen
      else downsampleLoop bucket rs (bucketKey bucket r :: seen)

/-- `_downsample_range(conn, bucket=..., newer_than=..., older_than=...)`
(storage.py:164-202).  Timestamps in the model are always parseable, so the
`fromisoformat` failure branch (storage.py:192-196, skip the row) never
fires. -/
def downsampleRange (table : List Row) (bucket : ℤ → ℤ)
    (newerThan olderThan : Option ℤ) : List Nat :=
  downsampleLoop bucket (sortRows (table.filter (inRange newerThan olderThan))) []

/-- storage.py:23 -/
def HIGH_DETAIL_DAYS : ℤ := 7

/-- storage.py:24 -/
def MEDIUM_DETAIL_DAYS : ℤ := 30

/-- The `to_delete` list of `prune_old_data` (storage.py:223-240): daily
downsampling strictly below the medium-detail cutoff, then hourly
downsampling between the medium- and high-detail cutoffs. -/
def pruneDeletions (table : List Row) (now : ℤ) : List Nat :=
  downsampleRange table truncateToDay none (some (now - MEDIUM_DETAIL_DAYS * 86400)) ++
    downsampleRange table truncateToHour (some (now - MEDIUM_DETAIL_DAYS * 86400))
      (some (now - HIGH_DETAIL_DAYS * 86400))

/-- `prune_old_data(conn)` (storage.py:218-245) for a given `now`: collect
`to_delete` and remove those rows (`_delete_rows`, storage.py:205-215,
modelled as one filter by row id). -/
def pruneOldData (table : List Row) (now : ℤ) : List Row :=
  table.filter (fun r => !((pruneDeletions table now).contains r.id))


/-! ## Sessions and utilization totals (storage.py:355-391, 846-1006) -/

/-- The scan loop of `_session_durations` (storage.py:362-374): minutes of
each maximal `IN_USE` run, an open trailing run clipped at `now`.
`acc` is the running session `start`. -/
def sessionDurationsLoop (now : ℤ) :
    List (ℤ × Status) → Option ℤ → List ℚ
  | [], none => []
  | [], some s => [((now - s : ℤ) : ℚ) / 60]
  | (ts, status) :: tl, acc =>
      if status == some "IN_USE" then
        match acc with
        | none => sessionDurationsLoop now tl (some ts)
        | some s => sessionDurationsLoop now tl (some s)
      else
        match acc with
        | some s => (((ts - s : ℤ) : ℚ) / 60) :: sessionDurationsLoop now tl none
        | none => sessionDurationsLoop now tl none

/-- `_session_durations(statuses, now=now)` (storage.py:355-374). -/
def sessionDurations (statuses : List (ℤ × Status)) (now : ℤ) : List ℚ :=
  sessionDurationsLoop now statuses none

/-- A `UtilizationTotals` accumulator (`_empty_totals`, storage.py:846-854).
Python stores floats, but every value arising here is an integer number of
seconds (or a count), so the model uses `ℤ`. -/
structure Totals where
  sessions : ℤ
  monitored_seconds : ℤ
  available_seconds : ℤ
  occupied_seconds : ℤ
  active_seconds : ℤ
  port_count : ℤ
  deriving DecidableEq

/-- `_empty_totals()` (storage.py:846-854). -/
def emptyTotals : Totals :=
  { sessions := 0, monitored_seconds := 0, available_seconds := 0,
    occupied_seconds := 0, active_seconds := 0, port_count := 0 }

/-- `_accumulate_totals(target, source)` (storage.py:857-871) as a pure
component-wise sum (the Python version mutates `target`). -/
def accumulateTotals (target source : Totals) : Totals :=
  { sessions := target.sessions + source.sessions,
    monitored_seconds := target.monitored_seconds + source.monitored_seconds,
    available_seconds := target.available_seconds + source.available_seconds,
    occupied_seconds := target.occupied_seconds + source.occupied_seconds,
    active_seconds := target.active_seconds + source.active_seconds,
    port_count := target.port_count + source.port_count }

/-- One step of the interval loop of `_compute_port_utilization`
(storage.py:886-898): skip empty intervals, then add the duration to each
matching counter.  `acc` is `(total, available, occupied, active)`. -/
def utilizationStep (acc : ℤ × ℤ × ℤ × ℤ) (iv : ℤ × ℤ × Status) : ℤ × ℤ × ℤ × ℤ :=
  if iv.2.1 ≤ iv.1 then acc
  else
    let duration := iv.2.1 - iv.1
    if duration ≤ 0 then acc
    else
      (acc.1 + duration,
       (if iv.2.2.isSome && !(statusIn iv.2.2 UNAVAILABLE_STATUSES) then
          acc.2.1 + duration else acc.2.1),
       (if statusIn iv.2.2 OCCUPIED_STATUSES then acc.2.2.1 + duration
        else acc.2.2.1),
       (if statusIn iv.2.2 ACTIVE_CHARGING_STATUSES then acc.2.2.2 + duration
        else acc.2.2.2))

/-- `_compute_port_utilization(events, now=now)` (storage.py:874-909). -/
def computePortUtilization (events : List (ℤ × Status)) (now : ℤ) :
    Option Totals :=
  let intervals := statusIntervals events now
  if intervals.isEmpty then none
  else
    let acc := intervals.foldl utilizationStep (0, 0, 0, 0)
    if acc.1 ≤ 0 then none
    else some
      { sessions := ((sessionDurations events now).length : ℤ),
        monitored_seconds := acc.1,
        available_seconds := acc.2.1,
        occupied_seconds := acc.2.2.1,
        active_seconds := acc.2.2.2,
        port_count := 1 }

/-- One step of the clipped interval loop of `_compute_port_usage_between`
(storage.py:924-940): drop intervals outside `[start, e)`, clip the rest. -/
def usageBetweenStep (start e : ℤ) (acc : ℤ × ℤ × ℤ × ℤ)
    (iv : ℤ × ℤ × Status) : ℤ × ℤ × ℤ × ℤ :=
  if iv.2.1 ≤ start ∨ e ≤ iv.1 then acc
  else
    let segStart := max iv.1 start
    let segEnd := min iv.2.1 e
    if segEnd ≤ segStart then acc
    else
      let duration := segEnd - segStart
      if duration ≤ 0 then acc
      else
        (acc.1 + duration,
         (if iv.2.2.isSome && !(statusIn iv.2.2 UNAVAILABLE_STATUSES) then
            acc.2.1 + duration else acc.2.1),
         (if statusIn iv.2.2 OCCUPIED_STATUSES then acc.2.2.1 + duration
          else acc.2.2.1),
         (if statusIn iv.2.2 ACTIVE_CHARGING_STATUSES then acc.2.2.2 + duration
          else acc.2.2.2))

/-- The session counter of `_compute_port_usage_between` (storage.py:944-963):
an automaton over the time-sorted events tracking `in_session`, with a
separate branch for events before `start` and a trailing open session counted
at the end. -/
def usageSessionLoop (start : ℤ) :
    List (ℤ × Status) → Bool → Nat → Nat
  | [], inSession, count => if inSession then count + 1 else count
  | (ts, status) :: tl, inSession, count =>
      if ts < start then
        if status == some "IN_USE" then usageSessionLoop start tl true count
        else if inSession && !(status == some "IN_USE") then
          usageSessionLoop start tl false (count + 1)
        else usageSessionLoop start tl inSession count
      else
        if status == some "IN_USE" then usageSessionLoop start tl true count
        else if inSession then usageSessionLoop start tl false (count + 1)
        else usageSessionLoop start tl inSession count

/-- `_compute_port_usage_between(events, start, e)` (storage.py:912-972). -/
def computePortUsageBetween (events : List (ℤ × Status)) (start e : ℤ) :
    Option Totals :=
  if events.isEmpty || decide (e ≤ start) then none
  else
    let intervals := statusIntervals events e
    let acc := intervals.foldl (usageBetweenStep start e) (0, 0, 0, 0)
    if acc.1 ≤ 0 then none
    else some
      { sessions := (usageSessionLoop start (sortEvents events) false 0 : ℤ),
        monitored_seconds := acc.1,
        available_seconds := acc.2.1,
        occupied_seconds := acc.2.2.1,
        active_seconds := acc.2.2.2,
        port_count := 1 }

/-- The record produced by `_format_utilization_metrics` (storage.py:975-1006).
Ratios are float divisions in Python, exact `ℚ` here; the int-vs-float
presentation of `sessions` (storage.py:981-984) does not change the value and
is dropped. -/
structure UtilMetrics where
  sessions : ℚ
  monitored_seconds : ℚ
  monitored_hours : ℚ
  monitored_days : ℚ
  available_seconds : ℚ
  occupied_seconds : ℚ
  active_seconds : ℚ
  session_count_per_day : ℚ
  session_count_per_hour : ℚ
  occupation_utilization_pct : ℚ
  active_charging_utilization_pct : ℚ
  availability_ratio : ℚ

/-- `_format_utilization_metrics(totals)` (storage.py:975-1006); each Python
`x if cond else 0.0` guard tests float truthiness, i.e. `≠ 0`. -/
def formatUtilizationMetrics (t : Totals) : UtilMetrics :=
  let monitored : ℚ := (t.monitored_seconds : ℚ)
  let available : ℚ := (t.available_seconds : ℚ)
  let occupied : ℚ := (t.occupied_seconds : ℚ)
  let active : ℚ := (t.active_seconds : ℚ)
  let sessions : ℚ := (t.sessions : ℚ)
  let hours : ℚ := if monitored ≠ 0 then monitored / 3600 else 0
  let days : ℚ := if monitored ≠ 0 then monitored / 86400 else 0
  { sessions := sessions,
    monitored_seconds := monitored,
    monitored_hours := hours,
    monitored_days := days,
    available_seconds := available,
    occupied_seconds := occupied,
    active_seconds := active,
    session_count_per_day := if days ≠ 0 then sessions / days else 0,
    session_count_per_hour := if hours ≠ 0 then sessions / hours else 0,
    occupation_utilization_pct :=
      if available ≠ 0 then occupied / available * 100 else 0,
    active_charging_utilization_pct :=
      if available ≠ 0 then active / available * 100 else 0,
    availability_ratio := if monitored ≠ 0 then available / monitored else 0 }

/-- Maximal `IN_USE` runs of a time-sorted event list as
`(start, optional end)` pairs: a run begins at an `IN_USE` event not already
inside a run and ends at the next non-`IN_USE` event (`none` while open). -/
def inUseRuns : List (ℤ × Status) → Option ℤ → List (ℤ × Option ℤ)
  | [], none => []
  | [], some s => [(s, none)]
  | (ts, status) :: tl, acc =>
      if status == some "IN_USE" then
        match acc with
        | none => inUseRuns tl (some ts)
        | some s => inUseRuns tl (some s)
      else
        match acc with
        | some s => (s, some ts) :: inUseRuns tl none
        | none => inUseRuns tl none

/-- Modelled from the spec wording of C5: the number of maximal `IN_USE` runs
that overlap the window `[start, e)`, a run carried in from before `start`
counted exactly once. -/
def specOverlappingRuns (events : List (ℤ × Status)) (start e : ℤ) : Nat :=
  ((inUseRuns (sortEvents events) none).filter
    (fun run => decide (run.1 < e) &&
      (match run.2 with
       | none => true
       | some re => decide (start < re)))).length


/-! ## Fingerprint job queue (storage.py:1436-1556) -/

/-- One `station_fingerprint_jobs` row (schema at storage.py:106-119). -/
structure Job where
  id : Nat
  location_id : Option String
  station_id : Option String
  scheduled_for : ℤ
  status : String
  attempts : Nat
  last_error : Option String
  created : ℤ
  updated : ℤ
  completed : Option ℤ
  deriving DecidableEq

/-- `status = 'pending' AND scheduled_for <= %s` (storage.py:1497). -/
def jobEligible (now : ℤ) (j : Job) : Bool :=
  j.status == "pending" && decide (j.scheduled_for ≤ now)

/-- Strict `ORDER BY scheduled_for ASC, id ASC` comparison. -/
def jobBefore (a b : Job) : Bool :=
  decide (a.scheduled_for < b.scheduled_for) ||
    (a.scheduled_for == b.scheduled_for && decide (a.id < b.id))

/-- Combine for `LIMIT 1` under that ordering. -/
def pickEarlier (acc : Option Job) (j : Job) : Option Job :=
  match acc with
  | none => some j
  | some b => if jobBefore j b then some j else some b

/-- The `SELECT` of `dequeue_station_fingerprint_job` (storage.py:1492-1503):
the earliest pending job with `scheduled_for ≤ now`, ordered by
`(scheduled_for, id)`. -/
def selectPendingJob (jobs : List Job) (now : ℤ) : Option Job :=
  (jobs.filter (jobEligible now)).foldl pickEarlier none

/-- The conditional claim update (storage.py:1507-1515): `UPDATE ... SET
status = 'processing', attempts = attempts + 1, updated = %s WHERE id = %s
AND status = 'pending'`, returning the new table and the affected rowcount. -/
def claimJob (jobs : List Job) (jobId : Nat) (now : ℤ) : List Job × Nat :=
  (jobs.map (fun j =>
     if j.id == jobId && j.status == "pending" then
       { j with status := "processing", attempts := j.attempts + 1,
                updated := now }
     else j),
   (jobs.filter (fun j => j.id == jobId && j.status == "pending")).length)

/-- The dict returned to the worker (storage.py:1524-1530); `scheduled_for`
always parses in the model, so the `ValueError` fallback to `None`
(storage.py:1520-1523) is dropped. -/
structure ClaimedJob where
  id : Nat
  location_id : Option String
  station_id : Option String
  scheduled_for : ℤ
  attempts : Nat
  deriving DecidableEq

/-- `dequeue_station_fingerprint_job(now)` (storage.py:1484-1530).  `s₁` is
the table state read by the `SELECT` and `s₂` the state at the conditional
`UPDATE`; they differ exactly when another worker claims the job in between.
Rowcount 0 rolls back and reports "no job" (storage.py:1516-1518). -/
def dequeueJob (s₁ s₂ : List Job) (now : ℤ) : Option ClaimedJob × List Job :=
  match selectPendingJob s₁ now with
  | none => (none, s₂)
  | some job =>
      let updated := claimJob s₂ job.id now
      if updated.2 = 0 then (none, s₂)
      else (some { id := job.id, location_id := job.location_id,
                   station_id := job.station_id,
                   scheduled_for := job.scheduled_for,
                   attempts := job.attempts + 1 }, updated.1)


/-! ## Station history and fingerprint (storage.py:445-524, 1208-1365) -/

/-- `location_id <=> %s AND station_id <=> %s`. -/
def stationMatches (r : Row) (loc sta : Option String) : Bool :=
  nullEq r.location_id loc && nullEq r.station_id sta

/-- `_distinct_station_ports(conn, location_id, station_id)`
(storage.py:445-459): `SELECT DISTINCT port_id` over the station's rows (the
result-set order is unspecified and irrelevant here). -/
def distinctStationPorts (table : List Row) (loc sta : Option String) :
    List (Option String) :=
  ((table.filter (fun r => stationMatches r loc sta)).map Row.port_id).dedup

/-- A Python dict with `Option String` keys, as an assoc list in insertion
order. -/
abbrev PortHistory := List (Option String × List (ℤ × Status))

/-- Python dict assignment `d[k] = v` on an insertion-ordered dict: replace
in place, or append a new key at the end. -/
def dictSet {κ ν : Type} [BEq κ] (m : List (κ × ν)) (k : κ) (v : ν) :
    List (κ × ν) :=
  match m with
  | [] => [(k, v)]
  | (k', v') :: tl => if k' == k then (k', v) :: tl else (k', v') :: dictSet tl k v

/-- Python dict lookup `d.get(k)`. -/
def dictGet {κ ν : Type} [BEq κ] (m : List (κ × ν)) (k : κ) : Option ν :=
  (m.find? (fun kv => kv.1 == k)).map Prod.snd

/-- `ORDER BY port_id, ts` (storage.py:484). -/
def rowPortTsLe (a b : Row) : Bool :=
  if a.port_id != b.port_id then optStrLe a.port_id b.port_id
  else decide (a.ts ≤ b.ts)

/-- The first query of `_station_history_between` (storage.py:475-487): the
station's rows with `start ≤ ts < end`, ordered by `(port_id, ts)`. -/
def stationWindowRows (table : List Row) (loc sta : Option String)
    (start e : ℤ) : List Row :=
  (table.filter (fun r => stationMatches r loc sta && decide (start ≤ r.ts) &&
    decide (r.ts < e))).insertionSort (fun a b => rowPortTsLe a b = true)

/-- The previous-status query of `_station_history_between`
(storage.py:498-514): for each port, the station rows achieving the maximal
`ts` strictly before `start` (SQL result order unspecified, modelled as table
order). -/
def stationPrevRows (table : List Row) (loc sta : Option String) (start : ℤ) :
    List Row :=
  let pre := table.filter (fun r => stationMatches r loc sta &&
    decide (r.ts < start))
  pre.filter (fun r => pre.all (fun q =>
    !(nullEq q.port_id r.port_id) || decide (q.ts ≤ r.ts)))

/-- One iteration of the prepend loop (storage.py:515-522):
`events = history.setdefault(port_id, [])`, then insert `(ts, status)` at the
front when the list is empty or starts later. -/
def insertPrevEvent (m : PortHistory) (r : Row) : PortHistory :=
  let events := (dictGet m r.port_id).getD []
  let m' := if (dictGet m r.port_id).isSome then m else m ++ [(r.port_id, [])]
  if events.isEmpty || decide (r.ts < (events.headD (0, none)).1) then
    dictSet m' r.port_id ((r.ts, r.status) :: events)
  else m'

/-- `_station_history_between(conn, location_id, station_id, start, end)`
(storage.py:462-524): initialise one empty list per known port, append the
in-window events per port (`setdefault(...).append(...)`,
storage.py:488-493), return `{}` early when the dict is empty
(storage.py:495-496), then graft the latest pre-window status per port. -/
def stationHistoryBetween (table : List Row) (loc sta : Option String)
    (start e : ℤ) : PortHistory :=
  let init : PortHistory :=
    (distinctStationPorts table loc sta).map (fun p => (p, []))
  let withWindow := (stationWindowRows table loc sta start e).foldl
    (fun m r => dictSet m r.port_id
      (((dictGet m r.port_id).getD []) ++ [(r.ts, r.status)])) init
  if withWindow.isEmpty then []
  else (stationPrevRows table loc sta start).foldl insertPrevEvent withWindow

/-- `_station_fingerprint_range(reference)` (storage.py:1208-1215): the 7-day
range ending at the most recent midnight.  `replace(hour=0, minute=0, ...)`
is flooring, so the `reference < midnight` adjustment (storage.py:1212-1213)
never fires; it is kept for fidelity. -/
def stationFingerprintRange (reference : ℤ) : ℤ × ℤ :=
  let midnight := 86400 * (reference / 86400)
  let midnight := if reference < midnight then midnight - 86400 else midnight
  (midnight - 7 * 86400, midnight)

/-- `station_fingerprint(conn, location_id, station_id, reference)`
(storage.py:1232-1249) restricted to its null decision: `None` is returned
exactly when `_station_history_between` comes back empty
(storage.py:1247-1249); otherwise the heatmap payload (storage.py:1251-1365)
is built from the history map.  The payload contents are not needed by the
nullness property verified here, so the model returns that history map. -/
def stationFingerprint (table : List Row) (loc sta : Option String)
    (reference : ℤ) : Option PortHistory :=
  let range := stationFingerprintRange reference
  let history := stationHistoryBetween table loc sta range.1 range.2
  if history.isEmpty then none else some history


/-! ## Classifier (`analyze_chargers`, storage.py:562-652) -/

/-- The `Rules` configuration (rules.py:3-14); all fields are integers. -/
structure Rules where
  unused_days : ℤ
  long_session_days : ℤ
  long_session_min : ℤ
  unavailable_hours : ℤ
  deriving DecidableEq

/-- `now - timedelta(days=max(unused_days, long_session_days,
unavailable_hours / 24))` (storage.py:573-575), in seconds: max commutes with
the conversion to seconds, and `(unavailable_hours / 24) days` is exactly
`unavailable_hours * 3600` seconds. -/
def analysisEarliest (rules : Rules) (now : ℤ) : ℤ :=
  now - max (rules.unused_days * 86400)
    (max (rules.long_session_days * 86400) (rules.unavailable_hours * 3600))

/-- The pre-fetched-history filter (storage.py:579-584): keep events with
`earliest ≤ ts ≤ now`, drop ports left empty.  The database path
(storage.py:576-577) applies the same bounds in SQL. -/
def filterHistory (history : List (PortKey × List (ℤ × Status)))
    (earliest now : ℤ) : List (PortKey × List (ℤ × Status)) :=
  (history.map (fun kv => (kv.1, kv.2.filter
    (fun ev => decide (earliest ≤ ev.1) && decide (ev.1 ≤ now))))).filter
    (fun kv => !kv.2.isEmpty)

/-- A station's key `(location_id, station_id)`. -/
abbrev StationKey := Option String × Option String

/-- A station's per-port event map. -/
abbrev StationPorts := List (Option String × List (ℤ × Status))

/-- `stations.setdefault((loc, sta), {})[port] = events` over the history
(storage.py:586-588). -/
def groupStations (history : List (PortKey × List (ℤ × Status))) :
    List (StationKey × StationPorts) :=
  history.foldl (fun acc kv =>
    let sk : StationKey := (kv.1.1, kv.1.2.1)
    dictSet acc sk (dictSet ((dictGet acc sk).getD []) kv.1.2.2 kv.2)) []

/-- `min(ts for events in ports.values() for ts, _ in events)`
(storage.py:594); `none` for an all-empty station, on which Python would
raise `ValueError` — `analyze_chargers` never builds one (`filterHistory`
drops empty ports). -/
def stationEarliestTs (ports : StationPorts) : Option ℤ :=
  ((ports.map (fun p => p.2.map Prod.fst)).flatten).min?

/-- The unused-rule body (storage.py:598-603): no port shows `IN_USE` within
the last `unused_days`. -/
def stationUnusedFires (ports : StationPorts) (now : ℤ) (rules : Rules) : Bool :=
  !(ports.any (fun p => p.2.any (fun ev =>
    ev.2 == some "IN_USE" &&
      decide (now - rules.unused_days * 86400 ≤ ev.1))))

/-- The no-long-session-rule body (storage.py:608-617): no session of at
least `long_session_min` minutes among events of the last
`long_session_days`. -/
def stationNoLongFires (ports : StationPorts) (now : ℤ) (rules : Rules) : Bool :=
  !(ports.any (fun p =>
    (sessionDurations (p.2.filter (fun ev =>
      decide (now - rules.long_session_days * 86400 ≤ ev.1))) now).any
      (fun d => decide ((rules.long_session_min : ℚ) ≤ d))))

/-- The unavailable-rule body (storage.py:625-638): every port's last status
is unavailable and no port reported a non-unavailable status within the last
`unavailable_hours`; the `if all_unavail and ports` guard (storage.py:638)
is the trailing non-emptiness conjunct. -/
def stationUnavailableFires (ports : StationPorts) (now : ℤ) (rules : Rules) :
    Bool :=
  (ports.all (fun p =>
    !p.2.isEmpty &&
    statusIn (p.2.getLastD (0, none)).2 UNAVAILABLE_STATUSES &&
    !(p.2.any (fun ev =>
      decide (now - rules.unavailable_hours * 3600 ≤ ev.1) &&
        !(statusIn ev.2 UNAVAILABLE_STATUSES))))) && !ports.isEmpty

/-- One station's gated rule evaluation (storage.py:593-640):
`(unused, no_long, unavailable)`, each rule evaluated only when
`history_span = now - earliest` reaches its window and skipped otherwise. -/
def stationRuleHits (ports : StationPorts) (now : ℤ) (rules : Rules) :
    Bool × Bool × Bool :=
  match stationEarliestTs ports with
  | none => (false, false, false)
  | some earliest =>
      let span := now - earliest
      (decide (rules.unused_days * 86400 ≤ span) &&
         stationUnusedFires ports now rules,
       decide (rules.long_session_days * 86400 ≤ span) &&
         stationNoLongFires ports now rules,
       decide (rules.unavailable_hours * 3600 ≤ span) &&
         stationUnavailableFires ports now rules)

/-- The reason strings appended per firing rule (storage.py:604, 619-621,
639). -/
def stationReasons (ports : StationPorts) (now : ℤ) (rules : Rules) :
    List String :=
  (if (stationRuleHits ports now rules).1 then
    ["unused > " ++ toString rules.unused_days ++ "d"] else []) ++
  (if (stationRuleHits ports now rules).2.1 then
    ["no session >= " ++ toString rules.long_session_min ++ "min in " ++
      toString rules.long_session_days ++ "d"] else []) ++
  (if (stationRuleHits ports now rules).2.2 then
    ["unavailable > " ++ toString rules.unavailable_hours ++ "h"] else [])

/-- The per-rule counters (storage.py:591). -/
structure RuleCounts where
  unused : ℕ
  no_long : ℕ
  unavailable : ℕ
  deriving DecidableEq

/-- One entry of the problematic list (storage.py:643-651). -/
structure ProblemEntry where
  location_id : Option String
  station_id : Option String
  port_id : Option String
  status : Option String
  reason : String
  deriving DecidableEq

/-- `analyze_chargers(conn, rules, now=now, history=history)`
(storage.py:562-652) on an explicit history map. -/
def analyzeChargers (history : List (PortKey × List (ℤ × Status)))
    (rules : Rules) (now : ℤ) : List ProblemEntry × RuleCounts :=
  let stations := groupStations
    (filterHistory history (analysisEarliest rules now) now)
  stations.foldl (fun acc st =>
    let hits := stationRuleHits st.2 now rules
    let reasons := stationReasons st.2 now rules
    ((if reasons.isEmpty then acc.1 else acc.1 ++
       [{ location_id := st.1.1, station_id := st.1.2, port_id := none,
          status := none, reason := String.intercalate ", " reasons }]),
     { unused := acc.2.unused + (if hits.1 then 1 else 0),
       no_long := acc.2.no_long + (if hits.2.1 then 1 else 0),
       unavailable := acc.2.unavailable + (if hits.2.2 then 1 else 0) }))
    ([], { unused := 0, no_long := 0, unavailable := 0 })

end Endolla

namespace Endolla

/-! ## Theorems -/

section C1

/-- Strict time-increase, the well-formedness of a `StatusTimeline`. -/
abbrev StrictTimes (events : List (ℤ × Status)) : Prop :=
  events.Pairwise (fun a b => a.1 < b.1)

theorem sortEvents_eq_self {events : List (ℤ × Status)} (h : StrictTimes events) :
    sortEvents events = events :=
  List.Sorted.insertionSort_eq (h.imp (fun hab => le_of_lt hab))

theorem tilesFrom_nil {lo hi : ℤ} : tilesFrom lo [] hi ↔ lo = hi := Iff.rfl

theorem tilesFrom_cons {lo hi : ℤ} {iv : ℤ × ℤ × Status} {tl : List (ℤ × ℤ × Status)} :
    tilesFrom lo (iv :: tl) hi ↔ iv.1 = lo ∧ lo < iv.2.1 ∧ tilesFrom iv.2.1 tl hi := Iff.rfl

theorem statusIntervalsLoop_tiles :
    ∀ (rest : List (ℤ × Status)) (prev : ℤ × Status) (e : ℤ),
      List.Chain' (fun a b => a.1 < b.1) (prev :: rest) → prev.1 < e →
      tilesFrom prev.1 (statusIntervalsLoop prev rest e) e := by
  intro rest
  induction rest with
  | nil =>
      intro prev e _ hlt
      unfold statusIntervalsLoop
      rw [if_pos hlt, tilesFrom_cons]
      exact ⟨rfl, hlt, rfl⟩
  | cons hd tl ih =>
      intro prev e hchain hlt
      obtain ⟨ts, status⟩ := hd
      have hprev : prev.1 < ts := (List.chain'_cons.mp hchain).1
      have htl : List.Chain' (fun a b => a.1 < b.1) ((ts, status) :: tl) :=
        (List.chain'_cons.mp hchain).2
      unfold statusIntervalsLoop
      rw [if_neg (not_le.mpr hprev)]
      by_cases hend : e ≤ ts
      · simp only [if_pos hend, min_eq_right hend]
        rw [if_pos hlt, tilesFrom_cons]
        exact ⟨rfl, hlt, rfl⟩
      · have hts : ts < e := not_le.mp hend
        simp only [if_neg hend, min_eq_left (le_of_lt hts)]
        rw [if_pos hprev, List.singleton_append, tilesFrom_cons]
        exact ⟨rfl, hprev, ih (ts, status) e htl hts⟩

theorem statusIntervalsLoop_mem :
    ∀ (rest : List (ℤ × Status)) (prev : ℤ × Status) (e : ℤ) (iv : ℤ × ℤ × Status),
      iv ∈ statusIntervalsLoop prev rest e → (iv.1, iv.2.2) ∈ prev :: rest := by
  intro rest
  induction rest with
  | nil =>
      intro prev e iv hmem
      simp only [statusIntervalsLoop] at hmem
      by_cases hlt : prev.1 < e
      · rw [if_pos hlt] at hmem
        simp only [List.mem_singleton] at hmem
        subst hmem
        simp
      · rw [if_neg hlt] at hmem
        simp at hmem
  | cons hd tl ih =>
      intro prev e iv hmem
      obtain ⟨ts, status⟩ := hd
      simp only [statusIntervalsLoop] at hmem
      by_cases hle : ts ≤ prev.1
      · rw [if_pos hle] at hmem
        have := ih (ts, status) e iv hmem
        simp only [List.mem_cons] at this ⊢
        tauto
      · rw [if_neg hle] at hmem
        by_cases hseg : prev.1 < min ts e
        · simp only [if_pos hseg] at hmem
          by_cases hend : e ≤ ts
          · rw [if_pos hend] at hmem
            simp only [List.mem_singleton] at hmem
            subst hmem
            simp
          · rw [if_neg hend] at hmem
            simp only [List.mem_append, List.mem_singleton] at hmem
            rcases hmem with h | h
            · subst h; simp
            · have := ih (ts, status) e iv h
              simp only [List.mem_cons] at this ⊢
              tauto
        · simp only [if_neg hseg] at hmem
          by_cases hend : e ≤ ts
          · rw [if_pos hend] at hmem
            simp at hmem
          · rw [if_neg hend] at hmem
            simp only [List.nil_append] at hmem
            have := ih (ts, status) e iv hmem
            simp only [List.mem_cons] at this ⊢
            tauto

theorem statusAt_mem {events : List (ℤ × Status)} (h : StrictTimes events)
    {t : ℤ} {s : Status} (hmem : (t, s) ∈ events) : statusAt events t = some s := by
  induction events with
  | nil => simp at hmem
  | cons hd tl ih =>
      have hpair := List.pairwise_cons.mp h
      rcases List.mem_cons.mp hmem with heq | htl
      · subst heq
        have hfilter : tl.filter (fun ev => decide (ev.1 ≤ t)) = [] := by
          rw [List.filter_eq_nil_iff]
          intro ev hev
          have : t < ev.1 := hpair.1 ev hev
          simp only [decide_eq_true_eq]
          omega
        simp [statusAt, List.filter_cons, hfilter]
      · have ht : hd.1 < t := hpair.1 (t, s) htl
        have ihr := ih hpair.2 htl
        have hne : tl.filter (fun ev => decide (ev.1 ≤ t)) ≠ [] := by
          intro hnil
          have := List.filter_eq_nil_iff.mp hnil (t, s) htl
          simp at this
        obtain ⟨x, xs, hxs⟩ := List.exists_cons_of_ne_nil hne
        simp only [statusAt, List.filter_cons, decide_eq_true_eq]
        rw [if_pos (by simpa using le_of_lt ht)]
        simp only [statusAt, hxs] at ihr ⊢
        rwa [List.getLast?_cons_cons]

theorem tilesFrom_filter {l : List (ℤ × ℤ × Status)} :
    ∀ {lo hi : ℤ}, tilesFrom lo l hi →
      l.filter (fun iv => decide (iv.1 < iv.2.1)) = l := by
  induction l with
  | nil => intro lo hi _; simp
  | cons iv tl ih =>
      intro lo hi h
      obtain ⟨h1, h2, h3⟩ := h
      have hi : iv.1 < iv.2.1 := h1 ▸ h2
      rw [List.filter_cons, if_pos (by simpa using hi), ih h3]

/-- C1: for a non-empty strictly-increasing timeline whose first event is
before the query end, `_status_intervals` tiles `[first_event, end)`
contiguously with positive-length intervals, and each interval carries the
timeline's status at that interval's start (storage.py:819-843). -/
theorem status_intervals_tile (events : List (ℤ × Status)) (e : ℤ)
    (first : ℤ × Status) (rest : List (ℤ × Status))
    (hev : events = first :: rest) (hsort : StrictTimes events)
    (hlt : first.1 < e) :
    tilesFrom first.1 (statusIntervals events e) e ∧
      ∀ iv ∈ statusIntervals events e, statusAt events iv.1 = some iv.2.2 := by
  have hs : sortEvents events = first :: rest := by
    rw [sortEvents_eq_self hsort, hev]
  have hchain : List.Chain' (fun a b : ℤ × Status => a.1 < b.1) (first :: rest) := by
    rw [← hev]
    exact hsort.chain'
  have htiles := statusIntervalsLoop_tiles rest first e hchain hlt
  have hunfold : statusIntervals events e =
      (statusIntervalsLoop first rest e).filter (fun iv => decide (iv.1 < iv.2.1)) := by
    unfold statusIntervals
    rw [hs]
    simp only [if_neg (not_le.mpr hlt)]
  rw [hunfold, tilesFrom_filter htiles]
  refine ⟨htiles, ?_⟩
  intro iv hmem
  have := statusIntervalsLoop_mem rest first e iv hmem
  exact statusAt_mem hsort (hev ▸ this)

/-- C1 witness: a concrete two-event timeline. -/
theorem status_intervals_tile_witness :
    tilesFrom 0 (statusIntervals [((0:ℤ), some "A"), (10, some "B")] 20) 20 ∧
      ∀ iv ∈ statusIntervals [((0:ℤ), some "A"), (10, some "B")] 20,
        statusAt [((0:ℤ), some "A"), (10, some "B")] iv.1 = some iv.2.2 :=
  status_intervals_tile [((0:ℤ), some "A"), (10, some "B")] 20 (0, some "A")
    [(10, some "B")] rfl (by decide) (by decide)

end C1

section C3

theorem foldl_pickLater_some :
    ∀ (l : List Row) (b r : Row), l.foldl pickLater (some b) = some r →
      (r = b ∨ r ∈ l) ∧ b.ts ≤ r.ts ∧ ∀ x ∈ l, x.ts ≤ r.ts := by
  intro l
  induction l with
  | nil =>
      intro b r h
      simp only [List.foldl_nil, Option.some.injEq] at h
      exact ⟨Or.inl h.symm, le_of_eq (by rw [h]), by simp⟩
  | cons hd tl ih =>
      intro b r h
      simp only [List.foldl_cons, pickLater] at h
      by_cases hbl : b.ts ≤ hd.ts
      · rw [if_pos hbl] at h
        obtain ⟨hsrc, hle, hall⟩ := ih hd r h
        refine ⟨?_, le_trans hbl hle, ?_⟩
        · rcases hsrc with he | hm
          · exact Or.inr (he ▸ List.mem_cons_self hd tl)
          · exact Or.inr (List.mem_cons_of_mem hd hm)
        · intro x hx
          rcases List.mem_cons.mp hx with he | hm
          · exact he ▸ hle
          · exact hall x hm
      · rw [if_neg hbl] at h
        obtain ⟨hsrc, hle, hall⟩ := ih b r h
        refine ⟨?_, hle, ?_⟩
        · rcases hsrc with he | hm
          · exact Or.inl he
          · exact Or.inr (List.mem_cons_of_mem hd hm)
        · intro x hx
          rcases List.mem_cons.mp hx with he | hm
          · exact he ▸ le_trans (le_of_lt (not_le.mp hbl)) hle
          · exact hall x hm

theorem foldl_pickLater_some_ne_none :
    ∀ (l : List Row) (b : Row), l.foldl pickLater (some b) ≠ none := by
  intro l
  induction l with
  | nil => intro b h; simp at h
  | cons hd tl ih =>
      intro b h
      simp only [List.foldl_cons, pickLater] at h
      by_cases hbl : b.ts ≤ hd.ts
      · rw [if_pos hbl] at h; exact ih hd h
      · rw [if_neg hbl] at h; exact ih b h

/-- `latestRow` returns a most recent matching row when it returns anything. -/
theorem latestRow_isMostRecent {table : List Row} {k : PortKey} {row : Row}
    (h : latestRow table k = some row) : IsMostRecent table k row := by
  unfold latestRow at h
  rcases hfil : table.filter (fun r => keyMatches r k) with _ | ⟨hd, tl⟩
  · rw [hfil] at h; simp at h
  · rw [hfil] at h
    simp only [List.foldl_cons, pickLater] at h
    obtain ⟨hsrc, hle, hall⟩ := foldl_pickLater_some tl hd row h
    have hmemfil : row ∈ table.filter (fun r => keyMatches r k) := by
      rw [hfil]
      rcases hsrc with he | hm
      · exact he ▸ List.mem_cons_self hd tl
      · exact List.mem_cons_of_mem hd hm
    have hmem := List.mem_filter.mp hmemfil
    refine ⟨hmem.1, by simpa using hmem.2, ?_⟩
    intro r hr hk
    have : r ∈ table.filter (fun r => keyMatches r k) :=
      List.mem_filter.mpr ⟨hr, by simpa using hk⟩
    rw [hfil] at this
    rcases List.mem_cons.mp this with he | hm
    · exact he ▸ hle
    · exact hall r hm

/-- `latestRow` only returns `none` when no stored row matches the key. -/
theorem latestRow_none {table : List Row} {k : PortKey}
    (h : latestRow table k = none) :
    ∀ r ∈ table, keyMatches r k = false := by
  intro r hr
  by_contra hk
  have hk' : keyMatches r k = true := by
    cases hmk : keyMatches r k
    · exact absurd hmk hk
    · rfl
  have : r ∈ table.filter (fun r => keyMatches r k) :=
    List.mem_filter.mpr ⟨hr, by simpa using hk'⟩
  unfold latestRow at h
  rcases hfil : table.filter (fun r => keyMatches r k) with _ | ⟨hd, tl⟩
  · rw [hfil] at this; simp at this
  · rw [hfil] at h
    simp only [List.foldl_cons, pickLater] at h
    exact foldl_pickLater_some_ne_none tl hd h

/-- C3: in `save_snapshot` (storage.py:305-352) a record produces a new
`port_status` row iff its status differs from the most recent stored status
for its `PortKey` (or no stored row matches that key), and the returned flag
is true iff at least one row was inserted.  Timestamp ties within a key are
excluded (`ORDER BY ts DESC LIMIT 1` is ambiguous on ties). -/
theorem save_snapshot_dedup (table : List Row) (records : List SnapshotRecord)
    (ts : ℤ) (nextId : Nat)
    (hties : ∀ r ∈ records, ∀ a ∈ table, ∀ b ∈ table,
      keyMatches a (recordKey r) = true → keyMatches b (recordKey r) = true →
      a.ts = b.ts → a = b) :
    (∀ r ∈ records,
      (r ∈ saveSnapshotNewRows table records ↔
        ∀ row, IsMostRecent table (recordKey r) row → row.status ≠ r.status)) ∧
    ((saveSnapshot table records ts nextId).2 = true ↔
      ∃ r ∈ records,
        ∀ row, IsMostRecent table (recordKey r) row → row.status ≠ r.status) := by
  have hmain : ∀ r ∈ records,
      (recordIsNew table r = true ↔
        ∀ row, IsMostRecent table (recordKey r) row → row.status ≠ r.status) := by
    intro r hr
    unfold recordIsNew
    rcases hlr : latestRow table (recordKey r) with _ | m
    · simp only [true_iff]
      intro row hmr
      exact absurd (hmr.2.1) (by simp [latestRow_none hlr row hmr.1])
    · have hm := latestRow_isMostRecent hlr
      constructor
      · intro hnew row hmr
        have hts : row.ts = m.ts :=
          le_antisymm (hm.2.2 row hmr.1 hmr.2.1) (hmr.2.2 m hm.1 hm.2.1)
        have : row = m := hties r hr row hmr.1 m hm.1 hmr.2.1 hm.2.1 hts
        subst this
        simp only [Bool.not_eq_true'] at hnew
        intro hcontra
        rw [hcontra] at hnew
        simp at hnew
      · intro hall
        have := hall m hm
        simp only [Bool.not_eq_true', beq_eq_false_iff_ne, ne_eq]
        exact this
  constructor
  · intro r hr
    rw [saveSnapshotNewRows, List.mem_filter]
    constructor
    · intro h
      exact (hmain r hr).mp h.2
    · intro h
      exact ⟨hr, (hmain r hr).mpr h⟩
  · show (!(saveSnapshotNewRows table records).isEmpty) = true ↔ _
    rw [Bool.not_eq_true', List.isEmpty_eq_false, Ne, saveSnapshotNewRows,
      List.filter_eq_nil_iff]
    push_neg
    constructor
    · rintro ⟨r, hr, hnew⟩
      exact ⟨r, hr, (hmain r hr).mp (by simpa using hnew)⟩
    · rintro ⟨r, hr, hcond⟩
      exact ⟨r, hr, by simpa using (hmain r hr).mpr hcond⟩

/-- C3 witness: one stored row; a same-status record is skipped and a
new-key record is inserted. -/
theorem save_snapshot_dedup_witness :
    (∀ r ∈ [({ location_id := some "L", station_id := some "S", port_id := some "P",
               status := some "AVAILABLE" } : SnapshotRecord),
            { location_id := some "L", station_id := some "S", port_id := some "Q",
              status := some "IN_USE" }],
      (r ∈ saveSnapshotNewRows
          [{ id := 1, ts := 0, location_id := some "L", station_id := some "S",
             port_id := some "P", status := some "AVAILABLE" }]
          [{ location_id := some "L", station_id := some "S", port_id := some "P",
             status := some "AVAILABLE" },
           { location_id := some "L", station_id := some "S", port_id := some "Q",
             status := some "IN_USE" }] ↔
        ∀ row, IsMostRecent
            [{ id := 1, ts := 0, location_id := some "L", station_id := some "S",
               port_id := some "P", status := some "AVAILABLE" }]
            (recordKey r) row → row.status ≠ r.status)) ∧
    ((saveSnapshot
        [{ id := 1, ts := 0, location_id := some "L", station_id := some "S",
           port_id := some "P", status := some "AVAILABLE" }]
        [{ location_id := some "L", station_id := some "S", port_id := some "P",
           status := some "AVAILABLE" },
         { location_id := some "L", station_id := some "S", port_id := some "Q",
           status := some "IN_USE" }] 100 2).2 = true ↔
      ∃ r ∈ [({ location_id := some "L", station_id := some "S", port_id := some "P",
                status := some "AVAILABLE" } : SnapshotRecord),
             { location_id := some "L", station_id := some "S", port_id := some "Q",
               status := some "IN_USE" }],
        ∀ row, IsMostRecent
            [{ id := 1, ts := 0, location_id := some "L", station_id := some "S",
               port_id := some "P", status := some "AVAILABLE" }]
            (recordKey r) row → row.status ≠ r.status) :=
  save_snapshot_dedup _ _ 100 2 (by decide)

end C3


section Pruning

theorem downsampleLoop_mem_src (bucket : ℤ → ℤ) :
    ∀ (rows : List Row) (seen : List (PortKey × ℤ)) (x : Nat),
      x ∈ downsampleLoop bucket rows seen → ∃ q ∈ rows, q.id = x := by
  intro rows
  induction rows with
  | nil => intro seen x h; simp [downsampleLoop] at h
  | cons r rs ih =>
      intro seen x h
      unfold downsampleLoop at h
      by_cases hk : bucketKey bucket r ∈ seen
      · rw [if_pos hk] at h
        rcases List.mem_cons.mp h with he | hm
        · exact ⟨r, List.mem_cons_self r rs, he.symm⟩
        · obtain ⟨q, hq, hid⟩ := ih seen x hm
          exact ⟨q, List.mem_cons_of_mem r hq, hid⟩
      · rw [if_neg hk] at h
        obtain ⟨q, hq, hid⟩ := ih _ x h
        exact ⟨q, List.mem_cons_of_mem r hq, hid⟩

theorem downsampleLoop_pairwise (bucket : ℤ → ℤ) :
    ∀ (rows : List Row) (seen : List (PortKey × ℤ)),
      rows.Pairwise (fun a b => bucketKey bucket a = bucketKey bucket b →
        b.id ∈ downsampleLoop bucket rows seen) ∧
      ∀ r ∈ rows, bucketKey bucket r ∈ seen →
        r.id ∈ downsampleLoop bucket rows seen := by
  intro rows
  induction rows with
  | nil => intro seen; exact ⟨List.Pairwise.nil, by simp⟩
  | cons r rs ih =>
      intro seen
      by_cases hk : bucketKey bucket r ∈ seen
      · constructor
        · rw [List.pairwise_cons]
          constructor
          · intro b hb heq
            simp only [downsampleLoop, if_pos hk]
            exact List.mem_cons_of_mem _ ((ih seen).2 b hb (heq ▸ hk))
          · refine ((ih seen).1).imp (fun h heq => ?_)
            simp only [downsampleLoop, if_pos hk]
            exact List.mem_cons_of_mem _ (h heq)
        · intro q hq hqs
          simp only [downsampleLoop, if_pos hk]
          rcases List.mem_cons.mp hq with he | hm
          · subst he; exact List.mem_cons_self _ _
          · exact List.mem_cons_of_mem _ ((ih seen).2 q hm hqs)
      · constructor
        · rw [List.pairwise_cons]
          constructor
          · intro b hb heq
            simp only [downsampleLoop, if_neg hk]
            exact (ih (bucketKey bucket r :: seen)).2 b hb
              (heq ▸ List.mem_cons_self _ _)
          · simp only [downsampleLoop, if_neg hk]
            exact (ih (bucketKey bucket r :: seen)).1
        · intro q hq hqs
          simp only [downsampleLoop, if_neg hk]
          rcases List.mem_cons.mp hq with he | hm
          · exact absurd (he ▸ hqs) hk
          · exact (ih (bucketKey bucket r :: seen)).2 q hm
              (List.mem_cons_of_mem _ hqs)

theorem downsampleLoop_eq_nil (bucket : ℤ → ℤ) :
    ∀ (rows : List Row) (seen : List (PortKey × ℤ)),
      rows.Pairwise (fun a b => bucketKey bucket a ≠ bucketKey bucket b) →
      (∀ r ∈ rows, bucketKey bucket r ∉ seen) →
      downsampleLoop bucket rows seen = [] := by
  intro rows
  induction rows with
  | nil => intro seen _ _; rfl
  | cons r rs ih =>
      intro seen hpw hns
      have hk : bucketKey bucket r ∉ seen := hns r (List.mem_cons_self _ _)
      simp only [downsampleLoop, if_neg hk]
      refine ih _ (List.pairwise_cons.mp hpw).2 ?_
      intro q hq hmem
      rcases List.mem_cons.mp hmem with he | hm
      · exact (List.pairwise_cons.mp hpw).1 q hq he.symm
      · exact hns q (List.mem_cons_of_mem _ hq) hm

/-- Scanned rows that survive a deletion set covering this pass's deletions
have pairwise-distinct bucket keys. -/
theorem survivors_pairwise (bucket : ℤ → ℤ) (table : List Row)
    (nt ot : Option ℤ) (D : List Nat)
    (hD : ∀ x ∈ downsampleRange table bucket nt ot, x ∈ D) :
    ((table.filter (inRange nt ot)).filter
        (fun r => !(D.contains r.id))).Pairwise
      (fun a b => bucketKey bucket a ≠ bucketKey bucket b) := by
  have hpw : (sortRows (table.filter (inRange nt ot))).Pairwise
      (fun a b => bucketKey bucket a = bucketKey bucket b →
        b.id ∈ downsampleRange table bucket nt ot) :=
    (downsampleLoop_pairwise bucket (sortRows (table.filter (inRange nt ot))) []).1
  have hfil := hpw.filter (fun r => !(D.contains r.id))
  have hstep : ((sortRows (table.filter (inRange nt ot))).filter
      (fun r => !(D.contains r.id))).Pairwise
      (fun a b => bucketKey bucket a ≠ bucketKey bucket b) := by
    refine hfil.imp_of_mem (fun ha hb h heq => ?_)
    have hbD := hD _ (h heq)
    have hbmem := (List.mem_filter.mp hb).2
    simp at hbmem
    exact hbmem hbD
  have hperm : List.Perm
      ((sortRows (table.filter (inRange nt ot))).filter
        (fun r => !(D.contains r.id)))
      ((table.filter (inRange nt ot)).filter (fun r => !(D.contains r.id))) :=
    (List.perm_insertionSort _ _).filter _
  exact (hperm.pairwise_iff (fun h => h.symm)).mp hstep

/-- Rerunning a downsampling pass on the pruned table finds nothing. -/
theorem downsampleRange_after_prune (bucket : ℤ → ℤ) (table : List Row)
    (now : ℤ) (nt ot : Option ℤ)
    (hD : ∀ x ∈ downsampleRange table bucket nt ot, x ∈ pruneDeletions table now) :
    downsampleRange (pruneOldData table now) bucket nt ot = [] := by
  have hcomm : (pruneOldData table now).filter (inRange nt ot) =
      (table.filter (inRange nt ot)).filter
        (fun r => !((pruneDeletions table now).contains r.id)) := by
    unfold pruneOldData
    rw [List.filter_filter, List.filter_filter]
    exact List.filter_congr (fun a _ => Bool.and_comm _ _)
  unfold downsampleRange
  rw [hcomm]
  refine downsampleLoop_eq_nil bucket _ [] ?_ (by simp)
  have hsp := survivors_pairwise bucket table nt ot (pruneDeletions table now) hD
  exact ((List.perm_insertionSort _ _).pairwise_iff (fun h => h.symm)).mpr hsp

/-- C9: retention pruning is idempotent — for a fixed `now`, pruning an
already-pruned table deletes nothing (storage.py:164-245). -/
theorem prune_old_data_idempotent (table : List Row) (now : ℤ) :
    pruneOldData (pruneOldData table now) now = pruneOldData table now := by
  have hdel : pruneDeletions (pruneOldData table now) now = [] := by
    unfold pruneDeletions
    rw [downsampleRange_after_prune _ _ _ _ _
        (fun x hx => List.mem_append_left _ hx),
      downsampleRange_after_prune _ _ _ _ _
        (fun x hx => List.mem_append_right _ hx)]
    rfl
  conv_lhs => rw [pruneOldData, hdel]
  exact List.filter_eq_self.mpr (fun a _ => by simp)

end Pruning



section C2

/-- C2 counterexample: a device whose two most recent rows (3600 s and 7200 s
into day 0) both lie in the daily downsampling tier at `now = day 40`.
Pruning keeps the first row per day bucket and deletes the row with the
greatest timestamp for the device, even though it is the device's most recent
row. -/
theorem prune_deletes_most_recent_counterexample :
    (({ id := 2, ts := 7200, location_id := some "L", station_id := some "S",
        port_id := some "P", status := some "B" } : Row) ∈
      [({ id := 1, ts := 3600, location_id := some "L", station_id := some "S",
          port_id := some "P", status := some "A" } : Row),
       { id := 2, ts := 7200, location_id := some "L", station_id := some "S",
         port_id := some "P", status := some "B" }]) ∧
    (∀ q ∈ [({ id := 1, ts := 3600, location_id := some "L",
               station_id := some "S", port_id := some "P",
               status := some "A" } : Row),
            { id := 2, ts := 7200, location_id := some "L",
              station_id := some "S", port_id := some "P",
              status := some "B" }],
      q.ts ≤ 7200) ∧
    (({ id := 2, ts := 7200, location_id := some "L", station_id := some "S",
        port_id := some "P", status := some "B" } : Row) ∉
      pruneOldData
        [({ id := 1, ts := 3600, location_id := some "L", station_id := some "S",
            port_id := some "P", status := some "A" } : Row),
         { id := 2, ts := 7200, location_id := some "L", station_id := some "S",
           port_id := some "P", status := some "B" }]
        (40 * 86400)) := by decide

theorem downsampleRange_mem_older (bucket : ℤ → ℤ) (table : List Row)
    (nt : Option ℤ) (c : ℤ) (x : Nat)
    (hx : x ∈ downsampleRange table bucket nt (some c)) :
    ∃ q ∈ table, q.id = x ∧ q.ts < c := by
  obtain ⟨q, hq, hid⟩ := downsampleLoop_mem_src bucket _ [] x hx
  have hq' : q ∈ table.filter (inRange nt (some c)) :=
    (List.perm_insertionSort _ _).mem_iff.mp hq
  have hmf := List.mem_filter.mp hq'
  refine ⟨q, hmf.1, hid, ?_⟩
  have h2 := hmf.2
  simp [inRange, Option.all] at h2
  exact h2.2

/-- C2 (amended): pruning never deletes a row inside the high-detail window
(`ts ≥ now − 7 days`); in the coarser tiers it keeps the earliest row per
`(PortKey, bucket)`, so a device's most recent row may be deleted when an
earlier row of the same device shares its downsampling bucket. -/
theorem prune_preserves_high_detail_rows (table : List Row) (now : ℤ)
    (hids : (table.map Row.id).Nodup) (r : Row) (hr : r ∈ table)
    (hts : now - HIGH_DETAIL_DAYS * 86400 ≤ r.ts) :
    r ∈ pruneOldData table now := by
  have hnot : r.id ∉ pruneDeletions table now := by
    intro hin
    rcases List.mem_append.mp hin with hd | hh
    · obtain ⟨q, hqt, hqid, hqts⟩ := downsampleRange_mem_older _ _ _ _ _ hd
      have heqr : q = r :=
        List.inj_on_of_nodup_map hids hqt hr (by rw [hqid])
      subst heqr
      simp only [HIGH_DETAIL_DAYS, MEDIUM_DETAIL_DAYS] at hts hqts
      omega
    · obtain ⟨q, hqt, hqid, hqts⟩ := downsampleRange_mem_older _ _ _ _ _ hh
      have heqr : q = r :=
        List.inj_on_of_nodup_map hids hqt hr (by rw [hqid])
      subst heqr
      simp only [HIGH_DETAIL_DAYS] at hts hqts
      omega
  unfold pruneOldData
  refine List.mem_filter.mpr ⟨hr, ?_⟩
  simp [List.contains, hnot]

/-- C2 (amended) witness: a row 100 s after the epoch survives pruning at
`now = 0`. -/
theorem prune_preserves_high_detail_rows_witness :
    ({ id := 1, ts := 100, location_id := some "L", station_id := some "S",
       port_id := some "P", status := some "A" } : Row) ∈
      pruneOldData
        [{ id := 1, ts := 100, location_id := some "L", station_id := some "S",
           port_id := some "P", status := some "A" }] 0 :=
  prune_preserves_high_detail_rows _ 0 (by decide) _ (by decide) (by decide)

end C2



section C10

/-- The C10 invariant for the running `(total, available, occupied, active)`
accumulator. -/
abbrev AccInv (acc : ℤ × ℤ × ℤ × ℤ) : Prop :=
  0 ≤ acc.2.2.2 ∧ acc.2.2.2 ≤ acc.2.2.1 ∧ acc.2.2.1 ≤ acc.2.1 ∧ acc.2.1 ≤ acc.1

/-- The C10 invariant on a totals record. -/
abbrev TotalsInv (t : Totals) : Prop :=
  0 < t.monitored_seconds ∧ 0 ≤ t.active_seconds ∧
    t.active_seconds ≤ t.occupied_seconds ∧
    t.occupied_seconds ≤ t.available_seconds ∧
    t.available_seconds ≤ t.monitored_seconds

/-- `ACTIVE_CHARGING_STATUSES ⊆ OCCUPIED_STATUSES` (storage.py:27-28). -/
theorem active_subset_occupied (st : Status)
    (h : statusIn st ACTIVE_CHARGING_STATUSES = true) :
    statusIn st OCCUPIED_STATUSES = true := by
  cases st with
  | none => simp [statusIn] at h
  | some v =>
      simp only [statusIn, ACTIVE_CHARGING_STATUSES, OCCUPIED_STATUSES,
        List.contains_cons, Bool.or_eq_true, beq_iff_eq] at h ⊢
      rcases h with h | h | h
      · exact Or.inl h
      · exact Or.inr (Or.inr (Or.inr (Or.inr (Or.inl h))))
      · simp [List.contains] at h

/-- An occupied status is non-null and outside the unavailable set
(storage.py:26-27 are disjoint). -/
theorem occupied_available (st : Status)
    (h : statusIn st OCCUPIED_STATUSES = true) :
    (st.isSome && !(statusIn st UNAVAILABLE_STATUSES)) = true := by
  cases st with
  | none => simp [statusIn] at h
  | some v =>
      simp only [statusIn, OCCUPIED_STATUSES, List.contains_cons,
        Bool.or_eq_true, beq_iff_eq] at h
      rcases h with h | h | h | h | h | h
      · subst h; decide
      · subst h; decide
      · subst h; decide
      · subst h; decide
      · subst h; decide
      · simp at h

theorem utilizationStep_inv (acc : ℤ × ℤ × ℤ × ℤ) (iv : ℤ × ℤ × Status)
    (h : AccInv acc) : AccInv (utilizationStep acc iv) := by
  unfold utilizationStep
  by_cases h0 : iv.2.1 ≤ iv.1
  · rwa [if_pos h0]
  · rw [if_neg h0]
    by_cases hd : iv.2.1 - iv.1 ≤ 0
    · simp only [if_pos hd]
      exact h
    · simp only [if_neg hd]
      obtain ⟨ha, hao, hoa, ham⟩ := h
      by_cases hact : statusIn iv.2.2 ACTIVE_CHARGING_STATUSES = true
      · have hocc := active_subset_occupied _ hact
        have hav := occupied_available _ hocc
        rw [if_pos hav, if_pos hocc, if_pos hact]
        refine ⟨?_, ?_, ?_, ?_⟩ <;> first | omega | (dsimp only; omega)
      · rw [if_neg hact]
        by_cases hocc : statusIn iv.2.2 OCCUPIED_STATUSES = true
        · have hav := occupied_available _ hocc
          rw [if_pos hav, if_pos hocc]
          refine ⟨?_, ?_, ?_, ?_⟩ <;> first | omega | (dsimp only; omega)
        · rw [if_neg hocc]
          by_cases hav : (iv.2.2.isSome && !(statusIn iv.2.2 UNAVAILABLE_STATUSES)) = true
          · rw [if_pos hav]
            refine ⟨?_, ?_, ?_, ?_⟩ <;> first | omega | (dsimp only; omega)
          · rw [if_neg hav]
            refine ⟨?_, ?_, ?_, ?_⟩ <;> first | omega | (dsimp only; omega)

theorem usageBetweenStep_inv (start e : ℤ) (acc : ℤ × ℤ × ℤ × ℤ)
    (iv : ℤ × ℤ × Status) (h : AccInv acc) :
    AccInv (usageBetweenStep start e acc iv) := by
  unfold usageBetweenStep
  by_cases h0 : iv.2.1 ≤ start ∨ e ≤ iv.1
  · rwa [if_pos h0]
  · rw [if_neg h0]
    by_cases hs : min iv.2.1 e ≤ max iv.1 start
    · simp only [if_pos hs]
      exact h
    · simp only [if_neg hs]
      by_cases hd : min iv.2.1 e - max iv.1 start ≤ 0
      · simp only [if_pos hd]
        exact h
      · simp only [if_neg hd]
        obtain ⟨ha, hao, hoa, ham⟩ := h
        by_cases hact : statusIn iv.2.2 ACTIVE_CHARGING_STATUSES = true
        · have hocc := active_subset_occupied _ hact
          have hav := occupied_available _ hocc
          rw [if_pos hav, if_pos hocc, if_pos hact]
          refine ⟨?_, ?_, ?_, ?_⟩ <;> first | omega | (dsimp only; omega)
        · rw [if_neg hact]
          by_cases hocc : statusIn iv.2.2 OCCUPIED_STATUSES = true
          · have hav := occupied_available _ hocc
            rw [if_pos hav, if_pos hocc]
            refine ⟨?_, ?_, ?_, ?_⟩ <;> first | omega | (dsimp only; omega)
          · rw [if_neg hocc]
            by_cases hav : (iv.2.2.isSome && !(statusIn iv.2.2 UNAVAILABLE_STATUSES)) = true
            · rw [if_pos hav]
              refine ⟨?_, ?_, ?_, ?_⟩ <;> first | omega | (dsimp only; omega)
            · rw [if_neg hav]
              refine ⟨?_, ?_, ?_, ?_⟩ <;> first | omega | (dsimp only; omega)

theorem foldl_step_inv {f : (ℤ × ℤ × ℤ × ℤ) → (ℤ × ℤ × Status) → ℤ × ℤ × ℤ × ℤ}
    (hf : ∀ acc iv, AccInv acc → AccInv (f acc iv)) :
    ∀ (l : List (ℤ × ℤ × Status)) (acc), AccInv acc → AccInv (l.foldl f acc) := by
  intro l
  induction l with
  | nil => intro acc h; exact h
  | cons iv tl ih => intro acc h; exact ih _ (hf acc iv h)

/-- C10: every totals record produced by `_compute_port_utilization` or
`_compute_port_usage_between` satisfies `monitored_seconds > 0` and
`0 ≤ active ≤ occupied ≤ available ≤ monitored` (the active-charging set is
contained in the occupied set, which is disjoint from the unavailable set),
and `_accumulate_totals` preserves the invariant. -/
theorem totals_invariant :
    (∀ events now t, computePortUtilization events now = some t → TotalsInv t) ∧
    (∀ events start e t, computePortUsageBetween events start e = some t →
      TotalsInv t) ∧
    (∀ a b, TotalsInv a → TotalsInv b → TotalsInv (accumulateTotals a b)) := by
  refine ⟨?_, ?_, ?_⟩
  · intro events now t h
    simp only [computePortUtilization] at h
    split at h
    · exact absurd h (by simp)
    · split at h
      · exact absurd h (by simp)
      · rw [Option.some_inj] at h
        subst h
        have hinv := foldl_step_inv utilizationStep_inv
          (statusIntervals events now) (0, 0, 0, 0) (by exact ⟨le_refl 0, le_refl 0, le_refl 0, le_refl 0⟩)
        obtain ⟨ha, hao, hoa, ham⟩ := hinv
        rename_i hpos
        refine ⟨?_, ?_, ?_, ?_, ?_⟩ <;> first | omega | (dsimp only; omega)
  · intro events start e t h
    simp only [computePortUsageBetween] at h
    split at h
    · exact absurd h (by simp)
    · split at h
      · exact absurd h (by simp)
      · rw [Option.some_inj] at h
        subst h
        have hinv := foldl_step_inv (usageBetweenStep_inv start e)
          (statusIntervals events e) (0, 0, 0, 0) (by exact ⟨le_refl 0, le_refl 0, le_refl 0, le_refl 0⟩)
        obtain ⟨ha, hao, hoa, ham⟩ := hinv
        rename_i hpos
        refine ⟨?_, ?_, ?_, ?_, ?_⟩ <;> first | omega | (dsimp only; omega)
  · intro a b ha hb
    obtain ⟨h1, h2, h3, h4, h5⟩ := ha
    obtain ⟨g1, g2, g3, g4, g5⟩ := hb
    unfold accumulateTotals
    refine ⟨?_, ?_, ?_, ?_, ?_⟩ <;> first | omega | (dsimp only; omega)

/-- C10 witness: one port in use for 10 s, plus a merge of two such totals. -/
theorem totals_invariant_witness :
    TotalsInv { sessions := 1, monitored_seconds := 10, available_seconds := 10,
                occupied_seconds := 10, active_seconds := 10, port_count := 1 } ∧
    TotalsInv { sessions := 1, monitored_seconds := 10, available_seconds := 10,
                occupied_seconds := 0, active_seconds := 0, port_count := 1 } ∧
    TotalsInv (accumulateTotals
      { sessions := 1, monitored_seconds := 10, available_seconds := 10,
        occupied_seconds := 10, active_seconds := 10, port_count := 1 }
      { sessions := 1, monitored_seconds := 10, available_seconds := 10,
        occupied_seconds := 0, active_seconds := 0, port_count := 1 }) :=
  ⟨totals_invariant.1 [((0:ℤ), some "IN_USE")] 10 _ (by decide),
   totals_invariant.2.1 [((0:ℤ), some "IN_USE"), (10, some "AVAILABLE")] 20 30 _
     (by decide),
   totals_invariant.2.2 _ _ (by decide) (by decide)⟩

end C10



section C5

/-- C5 counterexample: a single `IN_USE` run lying entirely before the query
window `[20, 30)` still increments the returned sessions count
(storage.py:947-954 count closed pre-window sessions), while the window
overlaps no `IN_USE` run. -/
theorem usage_sessions_counterexample :
    (computePortUsageBetween [((0:ℤ), some "IN_USE"), (10, some "AVAILABLE")]
        20 30).map Totals.sessions = some 1 ∧
    specOverlappingRuns [((0:ℤ), some "IN_USE"), (10, some "AVAILABLE")] 20 30
      = 0 := by decide

theorem usageSessionLoop_eq_runs (start : ℤ) :
    ∀ (l : List (ℤ × Status)) (acc : Option ℤ) (count : Nat),
      usageSessionLoop start l acc.isSome count =
        count + (inUseRuns l acc).length := by
  intro l
  induction l with
  | nil =>
      intro acc count
      cases acc <;> simp [usageSessionLoop, inUseRuns]
  | cons hd tl ih =>
      intro acc count
      obtain ⟨ts, status⟩ := hd
      by_cases hin : (status == some "IN_USE") = true
      · have hL : ∀ c, usageSessionLoop start ((ts, status) :: tl) c count =
            usageSessionLoop start tl true count := by
          intro c
          by_cases hts : ts < start
          · simp only [usageSessionLoop, if_pos hts, hin, if_true]
          · simp only [usageSessionLoop, if_neg hts, hin, if_true]
        cases acc with
        | none =>
            rw [show (Option.isSome (none : Option ℤ)) = false from rfl, hL false]
            have := ih (some ts) count
            rw [show (Option.isSome (some ts)) = true from rfl] at this
            rw [this]
            simp only [inUseRuns, hin, if_true]
        | some s =>
            rw [show (Option.isSome (some s)) = true from rfl, hL true]
            have := ih (some s) count
            rw [show (Option.isSome (some s)) = true from rfl] at this
            rw [this]
            simp only [inUseRuns, hin, if_true]
      · have hin' : (status == some "IN_USE") = false := by
          cases hx : status == some "IN_USE"
          · rfl
          · exact absurd hx hin
        cases acc with
        | none =>
            have hL : usageSessionLoop start ((ts, status) :: tl) false count =
                usageSessionLoop start tl false count := by
              by_cases hts : ts < start
              · simp [usageSessionLoop, hts, hin']
              · simp [usageSessionLoop, hts, hin']
            rw [show (Option.isSome (none : Option ℤ)) = false from rfl, hL]
            have := ih none count
            rw [show (Option.isSome (none : Option ℤ)) = false from rfl] at this
            rw [this]
            simp [inUseRuns, hin']
        | some s =>
            have hL : usageSessionLoop start ((ts, status) :: tl) true count =
                usageSessionLoop start tl false (count + 1) := by
              by_cases hts : ts < start
              · simp [usageSessionLoop, hts, hin']
              · simp [usageSessionLoop, hts, hin']
            rw [show (Option.isSome (some s)) = true from rfl, hL]
            have := ih none (count + 1)
            rw [show (Option.isSome (none : Option ℤ)) = false from rfl] at this
            rw [this]
            simp [inUseRuns, hin']
            omega

/-- C5 (amended): whenever `_compute_port_usage_between` returns a record, its
`sessions` field equals the number of maximal `IN_USE` runs of the whole
timeline — runs lying entirely outside `[start, e)` included, a run carried
in from before `start` counted once (storage.py:944-963 run the same
automaton on both sides of `start`). -/
theorem usage_between_counts_all_runs (events : List (ℤ × Status))
    (start e : ℤ) (t : Totals)
    (h : computePortUsageBetween events start e = some t) :
    t.sessions = ((inUseRuns (sortEvents events) none).length : ℤ) := by
  simp only [computePortUsageBetween] at h
  split at h
  · exact absurd h (by simp)
  · split at h
    · exact absurd h (by simp)
    · rw [Option.some_inj] at h
      subst h
      dsimp only
      have hrw := usageSessionLoop_eq_runs start (sortEvents events) none 0
      rw [show (Option.isSome (none : Option ℤ)) = false from rfl] at hrw
      rw [hrw]
      simp

/-- C5 (amended) witness: the pre-window run of the counterexample input is
exactly the one maximal run of the whole timeline. -/
theorem usage_between_counts_all_runs_witness :
    Totals.sessions
        { sessions := 1, monitored_seconds := 10, available_seconds := 10,
          occupied_seconds := 0, active_seconds := 0, port_count := 1 } =
      ((inUseRuns
          (sortEvents [((0:ℤ), some "IN_USE"), (10, some "AVAILABLE")])
          none).length : ℤ) :=
  usage_between_counts_all_runs [((0:ℤ), some "IN_USE"), (10, some "AVAILABLE")]
    20 30 _ (by decide)

end C5



section C8

/-- C8: for a totals record satisfying the system invariant (C10), the
derived utilization metrics are in range — percentages in `[0, 100]`,
`availability_ratio` in `[0, 1]` — and every ratio is exactly 0 when its
denominator is 0; in particular `monitored_seconds = 0` forces all ratios
(including the session rates) to 0, each guarded division returning 0
(storage.py:975-1006). -/
theorem format_metrics_ranges (t : Totals)
    (h0 : 0 ≤ t.active_seconds) (h1 : t.active_seconds ≤ t.occupied_seconds)
    (h2 : t.occupied_seconds ≤ t.available_seconds)
    (h3 : t.available_seconds ≤ t.monitored_seconds) :
    (0 ≤ (formatUtilizationMetrics t).occupation_utilization_pct ∧
      (formatUtilizationMetrics t).occupation_utilization_pct ≤ 100) ∧
    (0 ≤ (formatUtilizationMetrics t).active_charging_utilization_pct ∧
      (formatUtilizationMetrics t).active_charging_utilization_pct ≤ 100) ∧
    (0 ≤ (formatUtilizationMetrics t).availability_ratio ∧
      (formatUtilizationMetrics t).availability_ratio ≤ 1) ∧
    (t.monitored_seconds = 0 →
      (formatUtilizationMetrics t).session_count_per_day = 0 ∧
      (formatUtilizationMetrics t).session_count_per_hour = 0 ∧
      (formatUtilizationMetrics t).occupation_utilization_pct = 0 ∧
      (formatUtilizationMetrics t).active_charging_utilization_pct = 0 ∧
      (formatUtilizationMetrics t).availability_ratio = 0) ∧
    (t.available_seconds = 0 →
      (formatUtilizationMetrics t).occupation_utilization_pct = 0 ∧
      (formatUtilizationMetrics t).active_charging_utilization_pct = 0) := by
  have q0 : (0 : ℚ) ≤ (t.active_seconds : ℚ) := by exact_mod_cast h0
  have q1 : (t.active_seconds : ℚ) ≤ (t.occupied_seconds : ℚ) := by
    exact_mod_cast h1
  have q2 : (t.occupied_seconds : ℚ) ≤ (t.available_seconds : ℚ) := by
    exact_mod_cast h2
  have q3 : (t.available_seconds : ℚ) ≤ (t.monitored_seconds : ℚ) := by
    exact_mod_cast h3
  have qo : (0 : ℚ) ≤ (t.occupied_seconds : ℚ) := le_trans q0 q1
  have qa : (0 : ℚ) ≤ (t.available_seconds : ℚ) := le_trans qo q2
  have qm : (0 : ℚ) ≤ (t.monitored_seconds : ℚ) := le_trans qa q3
  simp only [formatUtilizationMetrics]
  refine ⟨?_, ?_, ?_, ?_, ?_⟩
  · by_cases hav : (t.available_seconds : ℚ) = 0
    · rw [if_neg (by simp [hav])]
      norm_num
    · rw [if_pos hav]
      have hpos : (0 : ℚ) < (t.available_seconds : ℚ) :=
        lt_of_le_of_ne qa (Ne.symm hav)
      constructor
      · exact mul_nonneg (div_nonneg qo qa) (by norm_num)
      · calc (t.occupied_seconds : ℚ) / (t.available_seconds : ℚ) * 100
            ≤ 1 * 100 :=
              mul_le_mul_of_nonneg_right ((div_le_one hpos).mpr q2) (by norm_num)
          _ = 100 := by norm_num
  · by_cases hav : (t.available_seconds : ℚ) = 0
    · rw [if_neg (by simp [hav])]
      norm_num
    · rw [if_pos hav]
      have hpos : (0 : ℚ) < (t.available_seconds : ℚ) :=
        lt_of_le_of_ne qa (Ne.symm hav)
      constructor
      · exact mul_nonneg (div_nonneg q0 qa) (by norm_num)
      · calc (t.active_seconds : ℚ) / (t.available_seconds : ℚ) * 100
            ≤ 1 * 100 :=
              mul_le_mul_of_nonneg_right
                ((div_le_one hpos).mpr (le_trans q1 q2)) (by norm_num)
          _ = 100 := by norm_num
  · by_cases hm : (t.monitored_seconds : ℚ) = 0
    · rw [if_neg (by simp [hm])]
      norm_num
    · rw [if_pos hm]
      have hpos : (0 : ℚ) < (t.monitored_seconds : ℚ) :=
        lt_of_le_of_ne qm (Ne.symm hm)
      exact ⟨div_nonneg qa qm, (div_le_one hpos).mpr q3⟩
  · intro hm0
    have hm : (t.monitored_seconds : ℚ) = 0 := by exact_mod_cast hm0
    have hav : (t.available_seconds : ℚ) = 0 := le_antisymm (hm ▸ q3) qa
    refine ⟨?_, ?_, ?_, ?_, ?_⟩
    · simp [hm]
    · simp [hm]
    · simp [hav]
    · simp [hav]
    · simp [hm]
  · intro hav0
    have hav : (t.available_seconds : ℚ) = 0 := by exact_mod_cast hav0
    exact ⟨by rw [if_neg (by simp [hav])], by rw [if_neg (by simp [hav])]⟩

/-- C8 witness: a concrete totals record with all denominators positive, and
the all-zero record. -/
theorem format_metrics_ranges_witness :
    ((0 ≤ (formatUtilizationMetrics
        { sessions := 3, monitored_seconds := 7200, available_seconds := 3600,
          occupied_seconds := 1800, active_seconds := 600,
          port_count := 1 }).occupation_utilization_pct ∧
      (formatUtilizationMetrics
        { sessions := 3, monitored_seconds := 7200, available_seconds := 3600,
          occupied_seconds := 1800, active_seconds := 600,
          port_count := 1 }).occupation_utilization_pct ≤ 100) ∧
    (0 ≤ (formatUtilizationMetrics
        { sessions := 3, monitored_seconds := 7200, available_seconds := 3600,
          occupied_seconds := 1800, active_seconds := 600,
          port_count := 1 }).active_charging_utilization_pct ∧
      (formatUtilizationMetrics
        { sessions := 3, monitored_seconds := 7200, available_seconds := 3600,
          occupied_seconds := 1800, active_seconds := 600,
          port_count := 1 }).active_charging_utilization_pct ≤ 100) ∧
    (0 ≤ (formatUtilizationMetrics
        { sessions := 3, monitored_seconds := 7200, available_seconds := 3600,
          occupied_seconds := 1800, active_seconds := 600,
          port_count := 1 }).availability_ratio ∧
      (formatUtilizationMetrics
        { sessions := 3, monitored_seconds := 7200, available_seconds := 3600,
          occupied_seconds := 1800, active_seconds := 600,
          port_count := 1 }).availability_ratio ≤ 1) ∧
    (({ sessions := 3, monitored_seconds := 7200, available_seconds := 3600,
        occupied_seconds := 1800, active_seconds := 600,
        port_count := 1 } : Totals).monitored_seconds = 0 →
      (formatUtilizationMetrics
        { sessions := 3, monitored_seconds := 7200, available_seconds := 3600,
          occupied_seconds := 1800, active_seconds := 600,
          port_count := 1 }).session_count_per_day = 0 ∧
      (formatUtilizationMetrics
        { sessions := 3, monitored_seconds := 7200, available_seconds := 3600,
          occupied_seconds := 1800, active_seconds := 600,
          port_count := 1 }).session_count_per_hour = 0 ∧
      (formatUtilizationMetrics
        { sessions := 3, monitored_seconds := 7200, available_seconds := 3600,
          occupied_seconds := 1800, active_seconds := 600,
          port_count := 1 }).occupation_utilization_pct = 0 ∧
      (formatUtilizationMetrics
        { sessions := 3, monitored_seconds := 7200, available_seconds := 3600,
          occupied_seconds := 1800, active_seconds := 600,
          port_count := 1 }).active_charging_utilization_pct = 0 ∧
      (formatUtilizationMetrics
        { sessions := 3, monitored_seconds := 7200, available_seconds := 3600,
          occupied_seconds := 1800, active_seconds := 600,
          port_count := 1 }).availability_ratio = 0) ∧
    (({ sessions := 3, monitored_seconds := 7200, available_seconds := 3600,
        occupied_seconds := 1800, active_seconds := 600,
        port_count := 1 } : Totals).available_seconds = 0 →
      (formatUtilizationMetrics
        { sessions := 3, monitored_seconds := 7200, available_seconds := 3600,
          occupied_seconds := 1800, active_seconds := 600,
          port_count := 1 }).occupation_utilization_pct = 0 ∧
      (formatUtilizationMetrics
        { sessions := 3, monitored_seconds := 7200, available_seconds := 3600,
          occupied_seconds := 1800, active_seconds := 600,
          port_count := 1 }).active_charging_utilization_pct = 0)) ∧
    ((formatUtilizationMetrics
        { sessions := 5, monitored_seconds := 0, available_seconds := 0,
          occupied_seconds := 0, active_seconds := 0,
          port_count := 1 }).session_count_per_day = 0 ∧
      (formatUtilizationMetrics
        { sessions := 5, monitored_seconds := 0, available_seconds := 0,
          occupied_seconds := 0, active_seconds := 0,
          port_count := 1 }).session_count_per_hour = 0 ∧
      (formatUtilizationMetrics
        { sessions := 5, monitored_seconds := 0, available_seconds := 0,
          occupied_seconds := 0, active_seconds := 0,
          port_count := 1 }).occupation_utilization_pct = 0 ∧
      (formatUtilizationMetrics
        { sessions := 5, monitored_seconds := 0, available_seconds := 0,
          occupied_seconds := 0, active_seconds := 0,
          port_count := 1 }).active_charging_utilization_pct = 0 ∧
      (formatUtilizationMetrics
        { sessions := 5, monitored_seconds := 0, available_seconds := 0,
          occupied_seconds := 0, active_seconds := 0,
          port_count := 1 }).availability_ratio = 0) :=
  ⟨format_metrics_ranges _ (by decide) (by decide) (by decide) (by decide),
   (format_metrics_ranges
      { sessions := 5, monitored_seconds := 0, available_seconds := 0,
        occupied_seconds := 0, active_seconds := 0, port_count := 1 }
      (by decide) (by decide) (by decide) (by decide)).2.2.2.1 rfl⟩

end C8



section C6

/-- Reflexive `(scheduled_for, id)` lexicographic order on jobs. -/
abbrev jobLexLe (a b : Job) : Prop :=
  a.scheduled_for < b.scheduled_for ∨
    (a.scheduled_for = b.scheduled_for ∧ a.id ≤ b.id)

theorem jobBefore_lexLe {a b : Job} (h : jobBefore a b = true) : jobLexLe a b := by
  simp only [jobBefore, Bool.or_eq_true, Bool.and_eq_true, decide_eq_true_eq,
    beq_iff_eq] at h
  rcases h with h | ⟨h1, h2⟩
  · exact Or.inl h
  · exact Or.inr ⟨h1, le_of_lt h2⟩

theorem not_jobBefore_lexLe {a b : Job} (h : ¬jobBefore a b = true) :
    jobLexLe b a := by
  simp only [jobBefore, Bool.or_eq_true, Bool.and_eq_true, decide_eq_true_eq,
    beq_iff_eq, not_or, not_and] at h
  obtain ⟨h1, h2⟩ := h
  by_cases he : a.scheduled_for = b.scheduled_for
  · exact Or.inr ⟨he.symm, by have := h2 he; omega⟩
  · exact Or.inl (by omega)

theorem jobLexLe_trans {a b c : Job} (h1 : jobLexLe a b) (h2 : jobLexLe b c) :
    jobLexLe a c := by
  rcases h1 with h1 | ⟨h1, h1'⟩ <;> rcases h2 with h2 | ⟨h2, h2'⟩
  · exact Or.inl (by omega)
  · exact Or.inl (by omega)
  · exact Or.inl (by omega)
  · exact Or.inr ⟨by omega, by omega⟩

theorem foldl_pickEarlier_some :
    ∀ (l : List Job) (b r : Job), l.foldl pickEarlier (some b) = some r →
      (r = b ∨ r ∈ l) ∧ jobLexLe r b ∧ ∀ x ∈ l, jobLexLe r x := by
  intro l
  induction l with
  | nil =>
      intro b r h
      simp only [List.foldl_nil, Option.some.injEq] at h
      exact ⟨Or.inl h.symm, by rw [h]; exact Or.inr ⟨rfl, le_refl _⟩, by simp⟩
  | cons hd tl ih =>
      intro b r h
      simp only [List.foldl_cons, pickEarlier] at h
      by_cases hbf : jobBefore hd b = true
      · rw [if_pos hbf] at h
        obtain ⟨hsrc, hle, hall⟩ := ih hd r h
        have hhdb : jobLexLe hd b := jobBefore_lexLe hbf
        refine ⟨?_, jobLexLe_trans hle hhdb, ?_⟩
        · rcases hsrc with he | hm
          · exact Or.inr (he ▸ List.mem_cons_self hd tl)
          · exact Or.inr (List.mem_cons_of_mem hd hm)
        · intro x hx
          rcases List.mem_cons.mp hx with he | hm
          · exact he ▸ hle
          · exact hall x hm
      · rw [if_neg hbf] at h
        obtain ⟨hsrc, hle, hall⟩ := ih b r h
        have hbhd : jobLexLe b hd := not_jobBefore_lexLe hbf
        refine ⟨?_, hle, ?_⟩
        · rcases hsrc with he | hm
          · exact Or.inl he
          · exact Or.inr (List.mem_cons_of_mem hd hm)
        · intro x hx
          rcases List.mem_cons.mp hx with he | hm
          · exact he ▸ jobLexLe_trans hle hbhd
          · exact hall x hm

theorem foldl_pickEarlier_ne_none :
    ∀ (l : List Job) (b : Job), l.foldl pickEarlier (some b) ≠ none := by
  intro l
  induction l with
  | nil => intro b h; simp at h
  | cons hd tl ih =>
      intro b h
      simp only [List.foldl_cons, pickEarlier] at h
      by_cases hbf : jobBefore hd b = true
      · rw [if_pos hbf] at h; exact ih hd h
      · rw [if_neg hbf] at h; exact ih b h

/-- C6: `dequeue_station_fingerprint_job(now)` (storage.py:1484-1530) selects
the earliest pending job with `scheduled_for ≤ now` (ordered by
`scheduled_for` then `id`, and some job is selected whenever one is
eligible); when the selected job is still pending at the conditional update
it is transitioned to `processing` with `attempts` incremented while all
other rows are untouched; and when the conditional update matches zero rows
the call returns no job and leaves the table unchanged, rather than
raising. -/
theorem dequeue_job_spec (s₁ s₂ : List Job) (now : ℤ) :
    (∀ j, selectPendingJob s₁ now = some j →
      j ∈ s₁ ∧ j.status = "pending" ∧ j.scheduled_for ≤ now ∧
        ∀ j' ∈ s₁, j'.status = "pending" → j'.scheduled_for ≤ now →
          jobLexLe j j') ∧
    ((∃ j' ∈ s₁, j'.status = "pending" ∧ j'.scheduled_for ≤ now) →
      (selectPendingJob s₁ now).isSome = true) ∧
    (∀ j, selectPendingJob s₁ now = some j →
      ((¬∃ j₂ ∈ s₂, j₂.id = j.id ∧ j₂.status = "pending") →
        dequeueJob s₁ s₂ now = (none, s₂)) ∧
      ((∃ j₂ ∈ s₂, j₂.id = j.id ∧ j₂.status = "pending") →
        (dequeueJob s₁ s₂ now).1 =
          some { id := j.id, location_id := j.location_id,
                 station_id := j.station_id,
                 scheduled_for := j.scheduled_for,
                 attempts := j.attempts + 1 } ∧
        (∀ j₂ ∈ s₂, ¬(j₂.id = j.id ∧ j₂.status = "pending") →
          j₂ ∈ (dequeueJob s₁ s₂ now).2) ∧
        (∀ j₂ ∈ s₂, j₂.id = j.id → j₂.status = "pending" →
          { j₂ with status := "processing", attempts := j₂.attempts + 1,
                    updated := now } ∈ (dequeueJob s₁ s₂ now).2) ∧
        (dequeueJob s₁ s₂ now).2.length = s₂.length)) := by
  have hsel : ∀ j, selectPendingJob s₁ now = some j →
      j ∈ s₁ ∧ j.status = "pending" ∧ j.scheduled_for ≤ now ∧
        ∀ j' ∈ s₁, j'.status = "pending" → j'.scheduled_for ≤ now →
          jobLexLe j j' := by
    intro j h
    unfold selectPendingJob at h
    rcases hfil : s₁.filter (jobEligible now) with _ | ⟨hd, tl⟩
    · rw [hfil] at h; simp at h
    · rw [hfil] at h
      simp only [List.foldl_cons, pickEarlier] at h
      obtain ⟨hsrc, hle, hall⟩ := foldl_pickEarlier_some tl hd j h
      have hjmem : j ∈ s₁.filter (jobEligible now) := by
        rw [hfil]
        rcases hsrc with he | hm
        · exact he ▸ List.mem_cons_self hd tl
        · exact List.mem_cons_of_mem hd hm
      have hj := List.mem_filter.mp hjmem
      have helig := hj.2
      simp only [jobEligible, Bool.and_eq_true, beq_iff_eq,
        decide_eq_true_eq] at helig
      refine ⟨hj.1, helig.1, helig.2, ?_⟩
      intro j' hj' hp hs
      have : j' ∈ s₁.filter (jobEligible now) := by
        refine List.mem_filter.mpr ⟨hj', ?_⟩
        simp only [jobEligible, Bool.and_eq_true, beq_iff_eq,
          decide_eq_true_eq]
        exact ⟨hp, hs⟩
      rw [hfil] at this
      rcases List.mem_cons.mp this with he | hm
      · exact he ▸ hle
      · exact hall j' hm
  refine ⟨hsel, ?_, ?_⟩
  · rintro ⟨j', hj', hp, hs⟩
    have hmem : j' ∈ s₁.filter (jobEligible now) := by
      refine List.mem_filter.mpr ⟨hj', ?_⟩
      simp only [jobEligible, Bool.and_eq_true, beq_iff_eq, decide_eq_true_eq]
      exact ⟨hp, hs⟩
    unfold selectPendingJob
    rcases hfil : s₁.filter (jobEligible now) with _ | ⟨hd, tl⟩
    · rw [hfil] at hmem; simp at hmem
    · simp only [List.foldl_cons, pickEarlier]
      rcases hres : tl.foldl pickEarlier (some hd) with _ | r
      · exact absurd hres (foldl_pickEarlier_ne_none tl hd)
      · simp
  · intro j hj
    have hcount : ((s₂.filter
        (fun j₂ => j₂.id == j.id && j₂.status == "pending")).length = 0 ↔
        ¬∃ j₂ ∈ s₂, j₂.id = j.id ∧ j₂.status = "pending") := by
      rw [List.length_eq_zero, List.filter_eq_nil_iff]
      constructor
      · rintro hnone ⟨j₂, hm, h1, h2⟩
        exact hnone j₂ hm (by simp [h1, h2])
      · intro hne j₂ hm hc
        simp only [Bool.and_eq_true, beq_iff_eq] at hc
        exact hne ⟨j₂, hm, hc.1, hc.2⟩
    constructor
    · intro hno
      unfold dequeueJob
      rw [hj]
      simp only [claimJob]
      rw [if_pos (hcount.mpr hno)]
    · intro hyes
      have hne : ((s₂.filter
          (fun j₂ => j₂.id == j.id && j₂.status == "pending")).length ≠ 0) := by
        intro h0
        exact (hcount.mp h0) hyes
      have hred : dequeueJob s₁ s₂ now =
          (some { id := j.id, location_id := j.location_id,
                  station_id := j.station_id,
                  scheduled_for := j.scheduled_for,
                  attempts := j.attempts + 1 },
           s₂.map (fun j₂ =>
             if j₂.id == j.id && j₂.status == "pending" then
               { j₂ with status := "processing", attempts := j₂.attempts + 1,
                         updated := now }
             else j₂)) := by
        unfold dequeueJob
        rw [hj]
        simp only [claimJob]
        rw [if_neg hne]
      refine ⟨by rw [hred], ?_, ?_, by rw [hred]; exact List.length_map _ _⟩
      · intro j₂ hm hnc
        rw [hred]
        have : (if j₂.id == j.id && j₂.status == "pending" then
            ({ j₂ with status := "processing", attempts := j₂.attempts + 1,
                       updated := now } : Job)
          else j₂) = j₂ := by
          rw [if_neg]
          intro hc
          simp only [Bool.and_eq_true, beq_iff_eq] at hc
          exact hnc hc
        exact this ▸ List.mem_map_of_mem _ hm
      · intro j₂ hm h1 h2
        rw [hred]
        have : (if j₂.id == j.id && j₂.status == "pending" then
            ({ j₂ with status := "processing", attempts := j₂.attempts + 1,
                       updated := now } : Job)
          else j₂) =
            { j₂ with status := "processing", attempts := j₂.attempts + 1,
                      updated := now } := by
          rw [if_pos (by simp [h1, h2])]
        exact this ▸ List.mem_map_of_mem _ hm

/-- C6 witness: a single pending job due at 5 is selected and claimed at
`now = 10`. -/
theorem dequeue_job_spec_witness :
    ({ id := 1, location_id := some "L", station_id := some "S",
       scheduled_for := 5, status := "pending", attempts := 0,
       last_error := none, created := 0, updated := 0,
       completed := none } : Job) ∈
        [({ id := 1, location_id := some "L", station_id := some "S",
            scheduled_for := 5, status := "pending", attempts := 0,
            last_error := none, created := 0, updated := 0,
            completed := none } : Job)] ∧
      Job.status { id := 1, location_id := some "L", station_id := some "S",
                   scheduled_for := 5, status := "pending", attempts := 0,
                   last_error := none, created := 0, updated := 0,
                   completed := none } = "pending" ∧
      Job.scheduled_for
          { id := 1, location_id := some "L", station_id := some "S",
            scheduled_for := 5, status := "pending", attempts := 0,
            last_error := none, created := 0, updated := 0,
            completed := none } ≤ 10 ∧
      ∀ j' ∈ [({ id := 1, location_id := some "L", station_id := some "S",
                 scheduled_for := 5, status := "pending", attempts := 0,
                 last_error := none, created := 0, updated := 0,
                 completed := none } : Job)],
        j'.status = "pending" → j'.scheduled_for ≤ 10 →
          jobLexLe { id := 1, location_id := some "L", station_id := some "S",
                     scheduled_for := 5, status := "pending", attempts := 0,
                     last_error := none, created := 0, updated := 0,
                     completed := none } j' :=
  (dequeue_job_spec
      [{ id := 1, location_id := some "L", station_id := some "S",
         scheduled_for := 5, status := "pending", attempts := 0,
         last_error := none, created := 0, updated := 0,
         completed := none }]
      [{ id := 1, location_id := some "L", station_id := some "S",
         scheduled_for := 5, status := "pending", attempts := 0,
         last_error := none, created := 0, updated := 0,
         completed := none }] 10).1 _ (by decide)

end C6



section C7

theorem dictSet_ne_nil (m : PortHistory) (k : Option String)
    (v : List (ℤ × Status)) : dictSet m k v ≠ [] := by
  cases m with
  | nil => simp [dictSet]
  | cons hd tl =>
      obtain ⟨k', v'⟩ := hd
      simp only [dictSet]
      split <;> simp

theorem insertPrevEvent_ne_nil (m : PortHistory) (r : Row) (h : m ≠ []) :
    insertPrevEvent m r ≠ [] := by
  unfold insertPrevEvent
  dsimp only
  split
  · exact dictSet_ne_nil _ _ _
  · split
    · exact h
    · simp

theorem foldl_preserve_ne_nil {α : Type} {f : PortHistory → α → PortHistory}
    (hf : ∀ m x, m ≠ [] → f m x ≠ []) :
    ∀ (l : List α) (m : PortHistory), m ≠ [] → l.foldl f m ≠ [] := by
  intro l
  induction l with
  | nil => intro m h; exact h
  | cons hd tl ih => intro m h; exact ih _ (hf m hd h)

theorem stationHistoryBetween_nil (table : List Row) (loc sta : Option String)
    (start e : ℤ) (h : ∀ r ∈ table, stationMatches r loc sta = false) :
    stationHistoryBetween table loc sta start e = [] := by
  have hfil : table.filter (fun r => stationMatches r loc sta) = [] := by
    rw [List.filter_eq_nil_iff]
    intro r hr
    simp [h r hr]
  have hwin : stationWindowRows table loc sta start e = [] := by
    unfold stationWindowRows
    have : table.filter (fun r => stationMatches r loc sta &&
        decide (start ≤ r.ts) && decide (r.ts < e)) = [] := by
      rw [List.filter_eq_nil_iff]
      intro r hr
      simp [h r hr]
    rw [this]
    rfl
  unfold stationHistoryBetween
  rw [hwin]
  simp only [distinctStationPorts, hfil, List.map_nil, List.dedup_nil,
    List.foldl_nil]
  rfl

theorem stationHistoryBetween_ne_nil (table : List Row)
    (loc sta : Option String) (start e : ℤ)
    (h : ∃ r ∈ table, stationMatches r loc sta = true) :
    stationHistoryBetween table loc sta start e ≠ [] := by
  obtain ⟨r, hr, hm⟩ := h
  have hfil : r ∈ table.filter (fun r => stationMatches r loc sta) :=
    List.mem_filter.mpr ⟨hr, by simpa using hm⟩
  have hne : table.filter (fun r => stationMatches r loc sta) ≠ [] := by
    intro h0
    rw [h0] at hfil
    simp at hfil
  have hports : distinctStationPorts table loc sta ≠ [] := by
    unfold distinctStationPorts
    intro h0
    rw [List.dedup_eq_nil, List.map_eq_nil_iff] at h0
    exact hne h0
  have hinit : ((distinctStationPorts table loc sta).map
      (fun p => (p, ([] : List (ℤ × Status))))) ≠ [] := by
    intro h0
    rw [List.map_eq_nil_iff] at h0
    exact hports h0
  unfold stationHistoryBetween
  have hwin := foldl_preserve_ne_nil
    (f := fun m r => dictSet m r.port_id
      (((dictGet m r.port_id).getD []) ++ [(r.ts, r.status)]))
    (fun m x _ => dictSet_ne_nil _ _ _)
    (stationWindowRows table loc sta start e) _ hinit
  rw [if_neg (by simpa using hwin)]
  exact foldl_preserve_ne_nil insertPrevEvent_ne_nil _ _ hwin

/-- C7 counterexample: the station's only row (`ts = 50`) lies entirely after
the fingerprint window `[-7·86400, 0)` for `reference = 0`, yet
`station_fingerprint` does not return null — it returns a (vacuous) heatmap,
because the port is still listed by `_distinct_station_ports`. -/
theorem station_fingerprint_counterexample :
    (∀ r ∈ [({ id := 1, ts := 50, location_id := some "L",
               station_id := some "S", port_id := some "P",
               status := some "AVAILABLE" } : Row)],
      r.ts < (stationFingerprintRange 0).1 ∨
        (stationFingerprintRange 0).2 ≤ r.ts) ∧
    (stationFingerprint
        [({ id := 1, ts := 50, location_id := some "L",
            station_id := some "S", port_id := some "P",
            status := some "AVAILABLE" } : Row)]
        (some "L") (some "S") 0).isSome = true := by decide

/-- C7 (amended): `station_fingerprint` returns null exactly when the station
has no `port_status` rows at all; a station whose rows all lie outside the
fingerprint window still yields a fingerprint (rows before the window are
carried in as the status at the window start, rows after it leave the cells
empty). -/
theorem station_fingerprint_none_iff (table : List Row)
    (loc sta : Option String) (reference : ℤ) :
    stationFingerprint table loc sta reference = none ↔
      ∀ r ∈ table, stationMatches r loc sta = false := by
  constructor
  · intro hnone r hr
    cases hm : stationMatches r loc sta with
    | false => rfl
    | true =>
        have hne := stationHistoryBetween_ne_nil table loc sta
          (stationFingerprintRange reference).1
          (stationFingerprintRange reference).2 ⟨r, hr, hm⟩
        unfold stationFingerprint at hnone
        dsimp only at hnone
        rw [if_neg (by simpa using hne)] at hnone
        simp at hnone
  · intro hall
    have h0 := stationHistoryBetween_nil table loc sta
      (stationFingerprintRange reference).1
      (stationFingerprintRange reference).2 hall
    unfold stationFingerprint
    dsimp only
    rw [h0]
    rfl

end C7



section C4

/-- C4 counterexample: a station whose history spans 8 days (events at
`now - 8 d` and `now - 6 d`, never `IN_USE`) is NOT flagged unused with
`unused_days = 7` (and the default `long_session_days = 2`,
`unavailable_hours = 24`): the lookback filter at storage.py:573-584 drops
every event before `now - 7 d`, so the surviving history spans only 6 days
and the unused rule is skipped by its own gate. -/
theorem analyze_unused_8day_counterexample :
    (∀ kv ∈ [(((some "L", some "S", some "P") : PortKey),
        [((-8 * 86400 : ℤ), (some "AVAILABLE" : Status)),
         (-6 * 86400, some "AVAILABLE")])],
      ∀ ev ∈ kv.2, ¬ev.2 = some "IN_USE") ∧
    (analyzeChargers
        [(((some "L", some "S", some "P") : PortKey),
          [((-8 * 86400 : ℤ), (some "AVAILABLE" : Status)),
           (-6 * 86400, some "AVAILABLE")])]
        { unused_days := 7, long_session_days := 2, long_session_min := 5,
          unavailable_hours := 24 } 0).2.unused = 0 := by decide

/-- C4 (amended): each classifier rule is evaluated for a station only when
the station's surviving history span (`now` minus its earliest event after
the lookback filter) reaches that rule's window, and is skipped — never
fires — otherwise.  In particular a station with only 6 hours of history and
`unused_days = 7` is not flagged unused, while a station with 8 days of
history and no `IN_USE` event is flagged unused when an event at
`now - unused_days` survives the filter (e.g. events at `now - 8 d` and
exactly `now - 7 d`). -/
theorem analyze_chargers_rule_gating (ports : StationPorts) (now : ℤ)
    (rules : Rules) (e : ℤ) (he : stationEarliestTs ports = some e) :
    ((now - e < rules.unused_days * 86400 →
        (stationRuleHits ports now rules).1 = false) ∧
      (now - e < rules.long_session_days * 86400 →
        (stationRuleHits ports now rules).2.1 = false) ∧
      (now - e < rules.unavailable_hours * 3600 →
        (stationRuleHits ports now rules).2.2 = false)) ∧
    (analyzeChargers
        [(((some "L", some "S", some "P") : PortKey),
          [((-6 * 3600 : ℤ), (some "AVAILABLE" : Status)),
           (0, some "AVAILABLE")])]
        { unused_days := 7, long_session_days := 2, long_session_min := 5,
          unavailable_hours := 24 } 0).2.unused = 0 ∧
    (analyzeChargers
        [(((some "L", some "S", some "P") : PortKey),
          [((-8 * 86400 : ℤ), (some "AVAILABLE" : Status)),
           (-7 * 86400, some "AVAILABLE")])]
        { unused_days := 7, long_session_days := 2, long_session_min := 5,
          unavailable_hours := 24 } 0).2.unused = 1 := by
  refine ⟨⟨?_, ?_, ?_⟩, by decide, by decide⟩
  · intro h
    unfold stationRuleHits
    rw [he]
    dsimp only
    rw [decide_eq_false (by omega), Bool.false_and]
  · intro h
    unfold stationRuleHits
    rw [he]
    dsimp only
    rw [decide_eq_false (by omega), Bool.false_and]
  · intro h
    unfold stationRuleHits
    rw [he]
    dsimp only
    rw [decide_eq_false (by omega), Bool.false_and]

/-- C4 (amended) witness: a one-event station, 10 s of history — every rule
window is unreached, so no rule fires. -/
theorem analyze_chargers_rule_gating_witness :
    ((10 - 0 < Rules.unused_days
        { unused_days := 7, long_session_days := 2, long_session_min := 5,
          unavailable_hours := 24 } * 86400 →
      (stationRuleHits [(some "P", [((0 : ℤ), (some "AVAILABLE" : Status))])]
        10 { unused_days := 7, long_session_days := 2, long_session_min := 5,
             unavailable_hours := 24 }).1 = false) ∧
     (10 - 0 < Rules.long_session_days
        { unused_days := 7, long_session_days := 2, long_session_min := 5,
          unavailable_hours := 24 } * 86400 →
      (stationRuleHits [(some "P", [((0 : ℤ), (some "AVAILABLE" : Status))])]
        10 { unused_days := 7, long_session_days := 2, long_session_min := 5,
             unavailable_hours := 24 }).2.1 = false) ∧
     (10 - 0 < Rules.unavailable_hours
        { unused_days := 7, long_session_days := 2, long_session_min := 5,
          unavailable_hours := 24 } * 3600 →
      (stationRuleHits [(some "P", [((0 : ℤ), (some "AVAILABLE" : Status))])]
        10 { unused_days := 7, long_session_days := 2, long_session_min := 5,
             unavailable_hours := 24 }).2.2 = false)) ∧
    (analyzeChargers
        [(((some "L", some "S", some "P") : PortKey),
          [((-6 * 3600 : ℤ), (some "AVAILABLE" : Status)),
           (0, some "AVAILABLE")])]
        { unused_days := 7, long_session_days := 2, long_session_min := 5,
          unavailable_hours := 24 } 0).2.unused = 0 ∧
    (analyzeChargers
        [(((some "L", some "S", some "P") : PortKey),
          [((-8 * 86400 : ℤ), (some "AVAILABLE" : Status)),
           (-7 * 86400, some "AVAILABLE")])]
        { unused_days := 7, long_session_days := 2, long_session_min := 5,
          unavailable_hours := 24 } 0).2.unused = 1 :=
  analyze_chargers_rule_gating
    [(some "P", [((0 : ℤ), (some "AVAILABLE" : Status))])] 10
    { unused_days := 7, long_session_days := 2, long_session_min := 5,
      unavailable_hours := 24 } 0 (by decide)

end C4


end Endolla
